import Mathlib

/-!
Verification of the tree builder, OOB-index machinery and tree
(de)serialization of the Rforestry honest random-forest core.

The development is a shallow embedding of `src/forestryTree.cpp`:

* feature values are `Option ℚ` — `none` models an IEEE NaN entry (the
  source only ever observes NaN through `std::isnan` and through `<` / `==`
  comparisons, which are false on NaN, so this embedding is exact for the
  code paths modelled here);
* `size_t` arithmetic is `Nat` with explicit `% 2^64` at the points where
  the source converts or may wrap; C++ `int` values travel as `Int`;
* the split-search kernels (`treeSplitting.cpp`), the `DataFrame`
  accessors, `RFNode.cpp` and the tree headers are not part of the given
  sources; where a claim needs them they are either taken as abstract
  function parameters (bundled in `Collaborators`) or modelled from the
  specification, with a doc comment saying so.
-/

/-- Modulus of `size_t` (64-bit) arithmetic. -/
def pow64 : Nat := 2 ^ 64

/-- C++ `int` to `size_t` conversion (modular reduction into `[0, 2^64)`). -/
def intToSizeT (i : Int) : Nat := (i % (pow64 : Int)).toNat

/-- Exact value of `DBL_MAX` (`std::numeric_limits<double>::max()`), used to
initialize the monotone bounds at the root. -/
def maxDouble : ℚ := 2 ^ 1024 - 2 ^ 971

/-- The slice of the `TrainingData` / `DataFrame` interface consumed by the
tree builder (see spec §4.A; `DataFrame.cpp` is external to the given
sources).  `point i j = none` models a NaN feature entry. -/
structure DataFrame where
  numRows : Nat
  numCols : Nat
  point : Nat → Nat → Option ℚ
  outcome : Nat → ℚ
  catCols : List Nat
  monotonicConstraints : List Int
  monotoneAvg : Bool
  groups : List Nat

/-- Modelled from the spec (§4.A), as `DataFrame::partitionMean` is not in
the given sources: the arithmetic mean of the outcomes over the supplied
indices.  (On an empty index list the embedding yields `0` where the C++
`0.0/0` would give NaN; no claim below depends on that value.) -/
def partitionMean (data : DataFrame) (indices : List Nat) : ℚ :=
  (indices.map data.outcome).sum / (indices.length : ℚ)

/-- In-memory tree node, mirroring `RFNode` as it is used by
`forestryTree.cpp`: `setLeafNode(avgCount, sptCount, nodeId, weight)` and
`setSplitNode(feature, value, left, right, naLeft, naRight, naDefaultDir)`.
A split node is never given a node id by either construction or
reconstruction (`setSplitNode` has no id parameter), which the embedding
records as `nodeId = none`.  `ridge` holds the coefficients stored by
`setRidgeCoefficients` for linear leaves. -/
inductive RFNode where
  | leaf (averageCount splitCount : Nat) (nodeId : Nat) (weight : ℚ)
      (ridge : Option (List ℚ))
  | split (splitFeature : Nat) (splitValue : ℚ) (leftChild rightChild : RFNode)
      (naLeftCount naRightCount : Nat) (naDefaultDirection : Int)
      (nodeId : Option Nat)
deriving DecidableEq

/-! ## Partitioning an index set at a split (`splitDataIntoTwoParts`, `splitData`) -/

/-- One pass of the `hasNas` loop of `splitDataIntoTwoParts`
(forestryTree.cpp:334–367): indices with a NaN on the split feature are
collected separately, the rest are routed by `== splitValue` (categorical)
or `< splitValue` (numeric). -/
def partitionThreeWay (data : DataFrame) (splitFeature : Nat) (splitValue : ℚ)
    (categorical : Bool) : List Nat → List Nat × List Nat × List Nat
  | [] => ([], [], [])
  | i :: rest =>
    let (l, r, na) := partitionThreeWay data splitFeature splitValue categorical rest
    match data.point i splitFeature with
    | none => (l, r, i :: na)
    | some x =>
      if (if categorical then x = splitValue else x < splitValue)
      then (i :: l, r, na) else (l, i :: r, na)

/-- The `!hasNas` loop of `splitDataIntoTwoParts`
(forestryTree.cpp:384–410).  A NaN entry compares false under both `==`
and `<`, hence is routed right. -/
def partitionTwoWay (data : DataFrame) (splitFeature : Nat) (splitValue : ℚ)
    (categorical : Bool) : List Nat → List Nat × List Nat
  | [] => ([], [])
  | i :: rest =>
    let (l, r) := partitionTwoWay data splitFeature splitValue categorical rest
    let routeLeft : Bool :=
      match data.point i splitFeature with
      | none => false
      | some x => if categorical then x = splitValue else x < splitValue
    if routeLeft then (i :: l, r) else (l, i :: r)

/-- `splitDataIntoTwoParts` (forestryTree.cpp:320–411).  Returns the left
partition, the right partition, and the updated in-out NA counters.  With
`hasNas`, NA indices are appended to the left when `naBestDirection = -1`,
to the right when `naBestDirection = 1`, and are dropped otherwise. -/
def splitDataIntoTwoParts (data : DataFrame) (sampleIndex : List Nat)
    (splitFeature : Nat) (splitValue : ℚ) (naBestDirection : Int)
    (categorical hasNas : Bool) (naLeftCount naRightCount : Nat) :
    List Nat × List Nat × Nat × Nat :=
  if hasNas then
    let (l, r, na) := partitionThreeWay data splitFeature splitValue categorical sampleIndex
    if naBestDirection = -1 then
      (l ++ na, r, naLeftCount + na.length, naRightCount)
    else if naBestDirection = 1 then
      (l, r ++ na, naLeftCount, naRightCount + na.length)
    else
      (l, r, naLeftCount, naRightCount)
  else
    let (l, r) := partitionTwoWay data splitFeature splitValue categorical sampleIndex
    (l, r, naLeftCount, naRightCount)

/-- `splitData` (forestryTree.cpp:459–506): partitions the averaging and
the splitting index sets with the same feature/value/direction.  The NA
counters passed outward are accumulated only by the splitting-set pass
(the averaging pass uses discarded local counters `avgL`, `avgR`). -/
def splitData (data : DataFrame) (averagingSampleIndex splittingSampleIndex : List Nat)
    (splitFeature : Nat) (splitValue : ℚ) (naBestDirection : Int)
    (naLeftCount naRightCount : Nat) (categorical hasNas : Bool) :
    (List Nat × List Nat) × (List Nat × List Nat) × Nat × Nat :=
  let avgParts :=
    splitDataIntoTwoParts data averagingSampleIndex splitFeature splitValue
      naBestDirection categorical hasNas 0 0
  let sptParts :=
    splitDataIntoTwoParts data splittingSampleIndex splitFeature splitValue
      naBestDirection categorical hasNas naLeftCount naRightCount
  ((avgParts.1, avgParts.2.1), (sptParts.1, sptParts.2.1),
    sptParts.2.2.1, sptParts.2.2.2)

/-! ## Monotone bound records (`updateMonotoneConstraints`) -/

/-- The `monotonic_info` record threaded through the recursion (spec §3). -/
structure MonotonicInfo where
  monotonic_constraints : List Int
  upper_bound : ℚ
  lower_bound : ℚ
  monotoneAvg : Bool
deriving DecidableEq

/-- Modelled from the spec: `calculateMonotonicBound` lives in
`treeSplitting.cpp`, which is not among the given sources.  Per §4.D the
mean is "projected through the parent bounds", i.e. clamped into
`[lower_bound, upper_bound]`. -/
def calculateMonotonicBound (mean : ℚ) (monotone_details : MonotonicInfo) : ℚ :=
  max monotone_details.lower_bound (min monotone_details.upper_bound mean)

/-- `updateMonotoneConstraints` (forestryTree.cpp:413–457).  Returns the
(left, right) child records.  `monotonic_constraints` is the separately
passed constraint vector installed into both children; the split direction
is read from the parent record at `bestSplitFeature`. -/
def updateMonotoneConstraints (monotone_details : MonotonicInfo)
    (monotonic_constraints : List Int) (leftMean rightMean : ℚ)
    (bestSplitFeature : Nat) : MonotonicInfo × MonotonicInfo :=
  let monotone_direction := monotone_details.monotonic_constraints.getD bestSplitFeature 0
  let leftNodeMean := calculateMonotonicBound leftMean monotone_details
  let rightNodeMean := calculateMonotonicBound rightMean monotone_details
  let midMean := (leftNodeMean + rightNodeMean) / 2
  if monotone_direction = -1 then
    (⟨monotonic_constraints, monotone_details.upper_bound, midMean,
        monotone_details.monotoneAvg⟩,
     ⟨monotonic_constraints, midMean, monotone_details.lower_bound,
        monotone_details.monotoneAvg⟩)
  else if monotone_direction = 1 then
    (⟨monotonic_constraints, midMean, monotone_details.lower_bound,
        monotone_details.monotoneAvg⟩,
     ⟨monotonic_constraints, monotone_details.upper_bound, midMean,
        monotone_details.monotoneAvg⟩)
  else
    (⟨monotonic_constraints, monotone_details.upper_bound,
        monotone_details.lower_bound, monotone_details.monotoneAvg⟩,
     ⟨monotonic_constraints, monotone_details.upper_bound,
        monotone_details.lower_bound, monotone_details.monotoneAvg⟩)

/-! ## Random generator and external collaborators -/

/-- Abstract state of a `std::mt19937_64` engine.  Constructing an engine
from a seed (`random_number_generator.seed(s)`) is `RNG.mk s`; all
consumption of randomness happens through the abstract draw functions in
`Collaborators`. -/
structure RNG where
  state : Nat
deriving DecidableEq

/-- Result of `selectBestFeature` as consumed by `recursivePartition`:
the winning feature, the winning cut value (`none` models the NaN
"no admissible split" sentinel), and the best NA routing direction.
The best loss and the ridge accumulator updates are dropped because no
modelled code path reads them. -/
structure SelectRes where
  bestSplitFeature : Nat
  bestSplitValue : Option ℚ
  bestSplitNaDir : Int
deriving DecidableEq

/-- The hyperparameters handed to the tree constructor (spec §6). -/
structure TreeConfig where
  mtry : Nat
  minNodeSizeSpt : Nat
  minNodeSizeAvg : Nat
  minNodeSizeToSplitSpt : Nat
  minNodeSizeToSplitAvg : Nat
  minSplitGain : ℚ
  maxDepth : Nat
  interactionDepth : Nat
  splitMiddle : Bool
  maxObs : Nat
  hasNas : Bool
  naDirection : Bool
  linear : Bool
  overfitPenalty : ℚ
  seed : Nat
deriving DecidableEq

/-- Modelled from the spec: the collaborators of the recursive partitioner
whose implementations (`treeSplitting.cpp`, `RFNode::setRidgeCoefficients`,
`std::discrete_distribution`) are not among the given sources.  Each is a
pure function — per spec §5 the whole build is deterministic and consumes
the PRNG in a fixed order — taken as a parameter of the embedding:

* `selectBest` stands for the feature sampling plus the kernel dispatch
  plus `determineBestSplit` (forestryTree.cpp:624–692), consuming and
  returning the recursion PRNG;
* `calculateRSS` is the ridge residual-sum-of-squares helper used by the
  min-split-gain gate;
* `ridgeFit` is `setRidgeCoefficients` (ridge fit on a leaf's averaging
  set);
* `discreteDraw` is `std::discrete_distribution` applied to an engine:
  it returns an index weighted by the supplied counts. -/
structure Collaborators where
  selectBest : DataFrame → TreeConfig → List Nat → List Nat → Nat → Bool →
    MonotonicInfo → RNG → SelectRes × RNG
  calculateRSS : DataFrame → List Nat → ℚ → RNG → ℚ × RNG
  ridgeFit : DataFrame → List Nat → ℚ → List ℚ
  discreteDraw : List Nat → RNG → Nat × RNG

/-- `calculateRSquaredSplit` (forestryTree.cpp:508–550): r² of the parent
fit and of the two child fits, over the splitting partitions. -/
def calculateRSquaredSplit (C : Collaborators) (data : DataFrame)
    (splittingSampleIndex splittingLeftPartitionIndex splittingRightPartitionIndex : List Nat)
    (overfitPenalty : ℚ) (rng : RNG) : (ℚ × ℚ) × RNG :=
  let (rssParent, rng1) := C.calculateRSS data splittingSampleIndex overfitPenalty rng
  let (rssLeft, rng2) := C.calculateRSS data splittingLeftPartitionIndex overfitPenalty rng1
  let (rssRight, rng3) := C.calculateRSS data splittingRightPartitionIndex overfitPenalty rng2
  let outcomeMean := (splittingSampleIndex.map data.outcome).sum /
    (splittingSampleIndex.length : ℚ)
  let totalSumSquares :=
    (splittingSampleIndex.map (fun i => (data.outcome i - outcomeMean) *
      (data.outcome i - outcomeMean))).sum
  ((1 - rssParent / totalSumSquares, 1 - (rssLeft + rssRight) / totalSumSquares), rng3)

/-- Accumulation loop of `crossValidatedRSquared` (forestryTree.cpp:566–578). -/
def crossValidatedRSquaredAux (C : Collaborators) (data : DataFrame)
    (spt sptL sptR : List Nat) (overfitPenalty : ℚ) :
    Nat → ℚ → ℚ → RNG → (ℚ × ℚ) × RNG
  | 0, accParent, accChildren, rng => ((accParent, accChildren), rng)
  | n + 1, accParent, accChildren, rng =>
    let ((rSquaredParent, rSquaredChildren), rng') :=
      calculateRSquaredSplit C data spt sptL sptR overfitPenalty rng
    crossValidatedRSquaredAux C data spt sptL sptR overfitPenalty n
      (accParent + rSquaredParent) (accChildren + rSquaredChildren) rng'

/-- `crossValidatedRSquared` (forestryTree.cpp:552–581). -/
def crossValidatedRSquared (C : Collaborators) (data : DataFrame)
    (spt sptL sptR : List Nat) (overfitPenalty : ℚ) (numTimesCV : Nat)
    (rng : RNG) : ℚ × RNG :=
  let ((totalRSquaredParent, totalRSquaredChildren), rng') :=
    crossValidatedRSquaredAux C data spt sptL sptR overfitPenalty numTimesCV 0 0 rng
  (totalRSquaredChildren / (numTimesCV : ℚ) - totalRSquaredParent / (numTimesCV : ℚ), rng')

/-- The NA-direction randomization draw (forestryTree.cpp:850–866): a fresh
`mt19937_64` is seeded from the tree seed (`getSeed()`) — NOT from the
recursion generator — and one index is drawn with weights given by the two
child averaging-partition sizes; `0` maps to direction `-1`, otherwise `1`.
By construction the result is a function of only the tree seed and the two
sizes. -/
def naDirectionDraw (discreteDraw : List Nat → RNG → Nat × RNG)
    (seed lAvgSize rAvgSize : Nat) : Int :=
  let (draw, _) := discreteDraw [lAvgSize, rAvgSize] (RNG.mk seed)
  if draw = 0 then -1 else 1

/-- The ridge coefficients stored on a sealed leaf
(forestryTree.cpp:615–619 and the parallel leaf-sealing sites). -/
def leafRidge (C : Collaborators) (data : DataFrame) (cfg : TreeConfig)
    (avg : List Nat) : Option (List ℚ) :=
  if cfg.linear then some (C.ridgeFit data avg cfg.overfitPenalty) else none

/-- A default-constructed `monotonic_info` (handed to the children when
`monotone_splits` is false, in which case no modelled code reads it). -/
def defaultMonotonicInfo : MonotonicInfo := ⟨[], 0, 0, false⟩

/-- The leaf-sealing block repeated at each terminal site of
`recursivePartition` (forestryTree.cpp:604–619, 694–713, 753–769,
785–804): `setLeafNode(|avg|, |spt|, assignNodeId(), partitionMean(avg))`
followed by `setRidgeCoefficients` when linear.  `assignNodeId` (declared
in the absent `forestryTree.h`) is modelled from the spec — "node ids are
assigned by a monotonically increasing counter owned by the containing
tree; ids are 1-indexed" — as increment-then-yield, so the sealed leaf
receives id `counter + 1`. -/
def sealLeaf (C : Collaborators) (data : DataFrame) (cfg : TreeConfig)
    (avg spt : List Nat) (counter : Nat) : RFNode :=
  RFNode.leaf avg.length spt.length (counter + 1) (partitionMean data avg)
    (leafRidge C data cfg avg)

/-- `forestryTree::recursivePartition` (forestryTree.cpp:584–916).

The C++ recursion carries `depth` and seals a leaf when
`|avg| < minNodeSizeAvg || |spt| < minNodeSizeSpt || depth == maxDepth`;
since `depth` only ever increases by 1 from 0 and the constructor enforces
`maxDepth ≥ 1`, the embedding carries the equivalent `fuel = maxDepth −
depth`, structurally decreasing, so `depth == maxDepth` is `fuel = 0`.
The three-way disjunction is realised as a match on `fuel` followed by the
size test; either order seals the identical leaf.  `counter` is the
tree's `_nodeCount`.  Node ids are handed only to `setLeafNode`;
`setSplitNode` takes none.  Returns the node, the final counter, and the
final recursion generator. -/
def recursivePartition (C : Collaborators) (data : DataFrame) (cfg : TreeConfig)
    (monotone_splits : Bool) :
    Nat → List Nat → List Nat → Nat → RNG → MonotonicInfo → RFNode × Nat × RNG
  | 0, avg, spt, counter, rng, _ =>
    (sealLeaf C data cfg avg spt counter, counter + 1, rng)
  | fuel + 1, avg, spt, counter, rng, monotone_details =>
    if avg.length < cfg.minNodeSizeAvg ∨ spt.length < cfg.minNodeSizeSpt then
      (sealLeaf C data cfg avg spt counter, counter + 1, rng)
    else
      let selected := C.selectBest data cfg avg spt (fuel + 1) monotone_splits
        monotone_details rng
      let res := selected.1
      let rng1 := selected.2
      match res.bestSplitValue with
      | none =>
        (sealLeaf C data cfg avg spt counter, counter + 1, rng1)
      | some bestSplitValue =>
        let categorical : Bool := decide (res.bestSplitFeature ∈ data.catCols)
        let parts := splitData data avg spt res.bestSplitFeature bestSplitValue
          res.bestSplitNaDir 0 0 categorical cfg.hasNas
        let avgL := parts.1.1
        let avgR := parts.1.2
        let sptL := parts.2.1.1
        let sptR := parts.2.1.2
        let naLeftCount := parts.2.2.1
        let naRightCount := parts.2.2.2
        if avgL.length * avgR.length * sptL.length * sptR.length = 0 then
          (sealLeaf C data cfg avg spt counter, counter + 1, rng1)
        else
          let gate :=
            if 0 < cfg.minSplitGain then
              let gres := crossValidatedRSquared C data spt sptL sptR
                cfg.overfitPenalty 1 rng1
              (decide (gres.1 < cfg.minSplitGain), gres.2)
            else (false, rng1)
          if gate.1 then
            (sealLeaf C data cfg avg spt counter, counter + 1, gate.2)
          else
            let childDetails :=
              if monotone_splits then
                updateMonotoneConstraints monotone_details data.monotonicConstraints
                  (partitionMean data sptL) (partitionMean data sptR) res.bestSplitFeature
              else (defaultMonotonicInfo, defaultMonotonicInfo)
            let naDir :=
              if cfg.naDirection ∧ naLeftCount = 0 ∧ naRightCount = 0 then
                naDirectionDraw C.discreteDraw cfg.seed avgL.length avgR.length
              else res.bestSplitNaDir
            let leftRes := recursivePartition C data cfg monotone_splits fuel
              avgL sptL counter gate.2 childDetails.1
            let rightRes := recursivePartition C data cfg monotone_splits fuel
              avgR sptR leftRes.2.1 leftRes.2.2 childDetails.2
            (RFNode.split res.bestSplitFeature bestSplitValue leftRes.1 rightRes.1
              naLeftCount naRightCount naDir none, rightRes.2.1, rightRes.2.2)

/-- The distinct `std::runtime_error`s thrown by the constructor's sanity
checks (forestryTree.cpp:67–114), one constructor per throw site. -/
inductive ConfigError where
  | minNodeSizeAvgZero
  | minNodeSizeSptZero
  | minNodeSizeToSplitSptZero
  | minNodeSizeToSplitAvgZero
  | minNodeSizeToSplitAvgExceedsSample
  | minNodeSizeToSplitSptExceedsSample
  | maxDepthZero
  | minSplitGainWithoutLinear
  | averagingIndexEmpty
  | splittingIndexEmpty
  | mtryZero
  | mtryExceedsFeatures
deriving DecidableEq

/-- A grown (or reconstructed) `forestryTree`: the root, the originally
sampled index vectors, the seed, and the node-id counter `_nodeCount`. -/
structure GrownTree where
  root : RFNode
  averagingSampleIndex : List Nat
  splittingSampleIndex : List Nat
  seed : Nat
  nodeCount : Nat
deriving DecidableEq

/-- The sanity checks of the tree constructor (forestryTree.cpp:67–114),
in source order: the first failing check names the error thrown, `none`
means every check passed. -/
def treeConstructorChecks (data : DataFrame) (cfg : TreeConfig)
    (splittingSampleIndex averagingSampleIndex : List Nat) : Option ConfigError :=
  if cfg.minNodeSizeAvg = 0 then some .minNodeSizeAvgZero
  else if cfg.minNodeSizeSpt = 0 then some .minNodeSizeSptZero
  else if cfg.minNodeSizeToSplitSpt = 0 then some .minNodeSizeToSplitSptZero
  else if cfg.minNodeSizeToSplitAvg = 0 then some .minNodeSizeToSplitAvgZero
  else if cfg.minNodeSizeToSplitAvg > averagingSampleIndex.length then
    some .minNodeSizeToSplitAvgExceedsSample
  else if cfg.minNodeSizeToSplitSpt > splittingSampleIndex.length then
    some .minNodeSizeToSplitSptExceedsSample
  else if cfg.maxDepth = 0 then some .maxDepthZero
  else if cfg.minSplitGain ≠ 0 ∧ ¬ cfg.linear then some .minSplitGainWithoutLinear
  else if averagingSampleIndex.length = 0 then some .averagingIndexEmpty
  else if splittingSampleIndex.length = 0 then some .splittingIndexEmpty
  else if cfg.mtry = 0 then some .mtryZero
  else if cfg.mtry > data.numCols then some .mtryExceedsFeatures
  else none

/-- The tree constructor `forestryTree::forestryTree`
(forestryTree.cpp:29–197): the twelve sanity checks in source order
(throwing before anything is built), then the monotonicity detection,
then the recursive build starting at depth 0 (fuel `maxDepth`) with node
counter 0.  On error no node has been built — the `Except.error` result
carries no tree. -/
def forestryTreeConstruct (C : Collaborators) (data : DataFrame) (cfg : TreeConfig)
    (splittingSampleIndex averagingSampleIndex : List Nat) (rng : RNG) :
    Except ConfigError GrownTree :=
  match treeConstructorChecks data cfg splittingSampleIndex averagingSampleIndex with
  | some e => .error e
  | none =>
    let monotone_splits := !(data.monotonicConstraints.all (fun i => i == 0))
    let monotone_details : MonotonicInfo :=
      ⟨data.monotonicConstraints, maxDouble, -maxDouble, data.monotoneAvg⟩
    let built := recursivePartition C data cfg monotone_splits cfg.maxDepth
      averagingSampleIndex splittingSampleIndex 0 rng monotone_details
    .ok ⟨built.1, averagingSampleIndex, splittingSampleIndex, cfg.seed, built.2.1⟩

/-! ## Flat record, serialization and reconstruction -/

/-- The six parallel per-node arrays of `tree_info` consumed and produced
by (de)serialization. -/
structure FlatArrays where
  var_ids : List Int
  split_vals : List ℚ
  naLeftCounts : List Int
  naRightCounts : List Int
  naDefaultDirections : List Int
  weights : List ℚ
deriving DecidableEq

/-- Componentwise concatenation of flat arrays. -/
def appendArrays (a b : FlatArrays) : FlatArrays :=
  ⟨a.var_ids ++ b.var_ids, a.split_vals ++ b.split_vals,
   a.naLeftCounts ++ b.naLeftCounts, a.naRightCounts ++ b.naRightCounts,
   a.naDefaultDirections ++ b.naDefaultDirections, a.weights ++ b.weights⟩

/-- All-empty flat arrays. -/
def emptyArrays : FlatArrays := ⟨[], [], [], [], [], []⟩

/-- Modelled from the spec: `RFNode::write_node_info` lives in the absent
`RFNode.cpp`.  Per spec §4.F/§6 the tree is flattened in pre-order into
parallel arrays; a leaf record is a negative `var_id` whose absolute value
is the averaging count, followed by a second `var_id` entry giving the
splitting count, and one entry of `weights` holding the leaf's prediction
weight (the other per-node arrays receive placeholder `0` entries, which
the deserializer consumes for every node and discards at leaves); a split
record uses `var_id = feature + 1` and consumes one `split_val`, one NA
count per side and one NA default direction.  Node ids and ridge
coefficients are not serialized. -/
def write_node_info : RFNode → FlatArrays
  | .leaf averageCount splitCount _ weight _ =>
    ⟨[-(averageCount : Int), (splitCount : Int)], [0], [0], [0], [0], [weight]⟩
  | .split splitFeature splitValue leftChild rightChild naLeftCount naRightCount
      naDefaultDirection _ =>
    appendArrays
      ⟨[(splitFeature : Int) + 1], [splitValue], [(naLeftCount : Int)],
       [(naRightCount : Int)], [naDefaultDirection], []⟩
      (appendArrays (write_node_info leftChild) (write_node_info rightChild))

/-- The flat tree record of spec §6: the per-node arrays plus the 1-based
sample-index vectors and the seed. -/
structure TreeRecord where
  var_ids : List Int
  split_vals : List ℚ
  naLeftCounts : List Int
  naRightCounts : List Int
  naDefaultDirections : List Int
  averagingSampleIndex : List Nat
  splittingSampleIndex : List Nat
  weights : List ℚ
  seed : Nat
deriving DecidableEq

/-- `forestryTree::getTreeInfo` (forestryTree.cpp:1508–1527): flatten the
root, emit the stored sample indices shifted to 1-based (`size_t`
addition, hence the explicit wrap), and the tree seed. -/
def getTreeInfo (t : GrownTree) : TreeRecord :=
  let a := write_node_info t.root
  ⟨a.var_ids, a.split_vals, a.naLeftCounts, a.naRightCounts, a.naDefaultDirections,
   t.averagingSampleIndex.map (fun e => (e + 1) % pow64),
   t.splittingSampleIndex.map (fun e => (e + 1) % pow64),
   a.weights, t.seed⟩

/-- `forestryTree::recursive_reconstruction` (forestryTree.cpp:1599–1683).
Every call consumes one entry of each per-node array; a negative `var_id`
marks a leaf, which additionally consumes a second `var_id` (both counts
recovered via `std::abs`) and one weight, and receives the next node id
from the counter; otherwise the left and right subtrees are reconstructed
in order and the node becomes a split with feature `(size_t)var_id - 1`
and the NA counts converted `int → size_t`.  The C++ recursion reads the
shrinking vectors with unchecked `[0]` accesses; the embedding returns
`none` where the source would read out of bounds, and carries `fuel`
(strictly decreasing, one unit per node) for termination. -/
def recursive_reconstruction (fuel : Nat) (counter : Nat) (a : FlatArrays) :
    Option (RFNode × Nat × FlatArrays) :=
  match fuel with
  | 0 => none
  | fuel + 1 =>
    match a.var_ids, a.split_vals, a.naLeftCounts, a.naRightCounts,
        a.naDefaultDirections with
    | var_id :: vrest, split_val :: srest, naLeftRaw :: nlrest,
      naRightRaw :: nrrest, naDefaultDirection :: ndrest =>
      if var_id < 0 then
        match vrest, a.weights with
        | var_id2 :: vrest2, predictionWeight :: wrest =>
          some (.leaf var_id.natAbs var_id2.natAbs (counter + 1) predictionWeight none,
            counter + 1, ⟨vrest2, srest, nlrest, nrrest, ndrest, wrest⟩)
        | _, _ => none
      else
        match recursive_reconstruction fuel counter
            ⟨vrest, srest, nlrest, nrrest, ndrest, a.weights⟩ with
        | none => none
        | some (leftChild, c1, a1) =>
          match recursive_reconstruction fuel c1 a1 with
          | none => none
          | some (rightChild, c2, a2) =>
            some (.split ((intToSizeT var_id + pow64 - 1) % pow64) split_val
                leftChild rightChild (intToSizeT naLeftRaw) (intToSizeT naRightRaw)
                naDefaultDirection none, c2, a2)
    | _, _, _, _, _ => none

/-- `forestryTree::reconstruct_tree` (forestryTree.cpp:1529–1596): store
the hyperparameters and seed, shift the 1-based sample indices back to
0-based (`size_t` subtraction, hence the wrap), reset the node counter to
0 and rebuild the root from the arrays.  The hyperparameter arguments do
not influence the rebuilt record and are omitted here; `fuel` is
instantiated with the length of `var_ids`, an upper bound on the number of
nodes any successful parse can contain. -/
def reconstruct_tree (seed : Nat) (r : TreeRecord) : Option GrownTree :=
  let avg := r.averagingSampleIndex.map (fun e => (e % pow64 + pow64 - 1) % pow64)
  let spt := r.splittingSampleIndex.map (fun e => (e % pow64 + pow64 - 1) % pow64)
  match recursive_reconstruction r.var_ids.length 0
      ⟨r.var_ids, r.split_vals, r.naLeftCounts, r.naRightCounts,
       r.naDefaultDirections, r.weights⟩ with
  | none => none
  | some (root, counter, _) => some ⟨root, avg, spt, seed, counter⟩

/-- Number of leaves of a node (the number of node ids its reconstruction
consumes). -/
def leafCount : RFNode → Nat
  | .leaf _ _ _ _ _ => 1
  | .split _ _ l r _ _ _ _ => leafCount l + leafCount r

/-- Total number of nodes. -/
def nodeTotal : RFNode → Nat
  | .leaf _ _ _ _ _ => 1
  | .split _ _ l r _ _ _ _ => 1 + nodeTotal l + nodeTotal r

/-- The node produced by reconstructing the flattening of `n` with the
counter starting at `c`: leaf ids are renumbered in traversal order,
split features and NA counts are reduced `mod 2^64`, and node ids of
splits, and ridge coefficients, are absent. -/
def reconNode : RFNode → Nat → RFNode
  | .leaf a s _ w _, c => .leaf a s (c + 1) w none
  | .split f v l r naL naR nd _, c =>
    .split (f % pow64) v (reconNode l c) (reconNode r (c + leafCount l))
      (naL % pow64) (naR % pow64) nd none

/-- A node is representable in the flat record format: every leaf has a
positive averaging count (a leaf with count 0 would serialize to
`var_id = 0`, which the deserializer reads as a split), and split
features and NA counts fit in a `size_t`. -/
def recordableNode : RFNode → Bool
  | .leaf a _ _ _ _ => 0 < a
  | .split f _ l r naL naR _ _ =>
    f < pow64 && naL < pow64 && naR < pow64 && recordableNode l && recordableNode r

/-- A well-formed flat tree record: one that is the flat record of some
tree whose node structure is representable in the format. -/
def wellFormedRecord (r : TreeRecord) : Prop :=
  ∃ t : GrownTree, recordableNode t.root = true ∧ getTreeInfo t = r

theorem appendArrays_assoc (a b c : FlatArrays) :
    appendArrays (appendArrays a b) c = appendArrays a (appendArrays b c) := by
  simp [appendArrays, List.append_assoc]

theorem appendArrays_empty (a : FlatArrays) : appendArrays a emptyArrays = a := by
  simp [appendArrays, emptyArrays]

theorem nodeTotal_le_var_ids_length (n : RFNode) :
    nodeTotal n ≤ (write_node_info n).var_ids.length := by
  induction n with
  | leaf a s id w ridge => simp [nodeTotal, write_node_info]
  | split f v l r naL naR nd id ihl ihr =>
    simp only [nodeTotal, write_node_info, appendArrays, List.length_append] at *
    simp only [List.length_cons, List.length_nil] at *
    omega

theorem intToSizeT_coe (n : Nat) : intToSizeT (n : Int) = n % pow64 := by
  unfold intToSizeT pow64
  omega

theorem intToSizeT_coe_succ (f : Nat) :
    (intToSizeT ((f : Int) + 1) + pow64 - 1) % pow64 = f % pow64 := by
  unfold intToSizeT pow64
  omega

theorem recursive_reconstruction_write (n : RFNode) :
    ∀ fuel counter rest, recordableNode n = true → nodeTotal n ≤ fuel →
    recursive_reconstruction fuel counter (appendArrays (write_node_info n) rest) =
      some (reconNode n counter, counter + leafCount n, rest) := by
  induction n with
  | leaf a s id w ridge =>
    intro fuel counter rest hrec hfuel
    simp only [nodeTotal] at hfuel
    obtain ⟨m, rfl⟩ : ∃ m, fuel = m + 1 := ⟨fuel - 1, by omega⟩
    simp only [recordableNode, decide_eq_true_eq] at hrec
    simp only [write_node_info, appendArrays, List.cons_append, List.singleton_append,
      List.nil_append, recursive_reconstruction]
    rw [if_pos (by omega : -(a : Int) < 0)]
    simp [reconNode, leafCount]
  | split f v l r naL naR nd id ihl ihr =>
    intro fuel counter rest hrec hfuel
    simp only [recordableNode, Bool.and_eq_true, decide_eq_true_eq] at hrec
    obtain ⟨⟨⟨⟨hf, hnaL⟩, hnaR⟩, hl⟩, hr⟩ := hrec
    simp only [nodeTotal] at hfuel
    obtain ⟨m, rfl⟩ : ∃ m, fuel = m + 1 := ⟨fuel - 1, by omega⟩
    have ihl' := ihl m counter (appendArrays (write_node_info r) rest) hl (by omega)
    have ihr' := ihr m (counter + leafCount l) rest hr (by omega)
    simp only [write_node_info, appendArrays, List.cons_append, List.singleton_append,
      List.nil_append, List.append_assoc, recursive_reconstruction]
    rw [if_neg (by omega : ¬ ((f : Int) + 1 < 0))]
    simp only [appendArrays] at ihl' ihr'
    simp only [ihl', ihr']
    simp [reconNode, leafCount, intToSizeT_coe_succ, intToSizeT_coe]
    omega

theorem write_reconNode (n : RFNode) (h : recordableNode n = true) (c : Nat) :
    write_node_info (reconNode n c) = write_node_info n := by
  induction n generalizing c with
  | leaf a s id w ridge => simp [reconNode, write_node_info]
  | split f v l r naL naR nd id ihl ihr =>
    simp only [recordableNode, Bool.and_eq_true, decide_eq_true_eq] at h
    obtain ⟨⟨⟨⟨hf, hnaL⟩, hnaR⟩, hl⟩, hr⟩ := h
    simp only [reconNode, write_node_info, ihl hl, ihr hr,
      Nat.mod_eq_of_lt hf, Nat.mod_eq_of_lt hnaL, Nat.mod_eq_of_lt hnaR]

theorem flatArrays_eta (a : FlatArrays) :
    (⟨a.var_ids, a.split_vals, a.naLeftCounts, a.naRightCounts,
      a.naDefaultDirections, a.weights⟩ : FlatArrays) = a := rfl

theorem roundtrip_sample_entry (e : Nat) :
    ((((e + 1) % pow64) % pow64 + pow64 - 1) % pow64 + 1) % pow64 = (e + 1) % pow64 := by
  unfold pow64
  omega

theorem roundtrip_sample_map (l : List Nat) :
    ((l.map (fun e => (e + 1) % pow64)).map
        (fun e => (e % pow64 + pow64 - 1) % pow64)).map (fun e => (e + 1) % pow64) =
      l.map (fun e => (e + 1) % pow64) := by
  induction l with
  | nil => rfl
  | cons x xs ih =>
    simp only [List.map_cons]
    rw [ih, roundtrip_sample_entry x]

/-- C2: for every well-formed flat tree record, reconstructing with
`reconstruct_tree` (seeded from the record) and flattening again with
`getTreeInfo` reproduces the record exactly — `flatten ∘ reconstruct` is
the identity on the record layout, including the 1-based sample-index
vectors and the seed. -/
theorem claim_C2_flatten_reconstruct_identity (r : TreeRecord)
    (h : wellFormedRecord r) :
    (reconstruct_tree r.seed r).map getTreeInfo = some r := by
  obtain ⟨t, hok, rfl⟩ := h
  have hfuel : nodeTotal t.root ≤ (getTreeInfo t).var_ids.length := by
    simpa [getTreeInfo] using nodeTotal_le_var_ids_length t.root
  have hparse := recursive_reconstruction_write t.root
    (getTreeInfo t).var_ids.length 0 emptyArrays hok hfuel
  rw [appendArrays_empty] at hparse
  have harr : (⟨(getTreeInfo t).var_ids, (getTreeInfo t).split_vals,
      (getTreeInfo t).naLeftCounts, (getTreeInfo t).naRightCounts,
      (getTreeInfo t).naDefaultDirections, (getTreeInfo t).weights⟩ : FlatArrays) =
      write_node_info t.root := rfl
  unfold reconstruct_tree
  rw [harr, hparse]
  rw [Option.map_some']
  refine congrArg some ?_
  unfold getTreeInfo
  rw [write_reconNode t.root hok]
  simp only [TreeRecord.mk.injEq, roundtrip_sample_map, and_self, and_true, true_and]

/-- A concrete tree used to witness well-formedness. -/
def witnessTree : GrownTree :=
  ⟨RFNode.split 0 (5/2) (RFNode.leaf 2 3 1 4 none) (RFNode.leaf 1 2 2 7 none)
      1 0 (-1) none,
    [0, 4], [1, 2, 2], 42, 2⟩

theorem claim_C2_flatten_reconstruct_identity_witness :
    wellFormedRecord (getTreeInfo witnessTree) ∧
      (reconstruct_tree (getTreeInfo witnessTree).seed
          (getTreeInfo witnessTree)).map getTreeInfo =
        some (getTreeInfo witnessTree) :=
  ⟨⟨witnessTree, by decide, rfl⟩,
    claim_C2_flatten_reconstruct_identity (getTreeInfo witnessTree)
      ⟨witnessTree, by decide, rfl⟩⟩

/-! ## Concrete fixtures used by witnesses and counterexamples -/

/-- Concrete collaborators: the kernel always proposes the cut `x₀ < 2`
with NA direction 0, the ridge fit returns the empty coefficient vector,
and the draws return index 0. -/
def demoCollab : Collaborators :=
  ⟨fun _ _ _ _ _ _ _ rng => (⟨0, some 2, 0⟩, rng),
   fun _ _ _ rng => (0, rng),
   fun _ _ _ => [],
   fun _ rng => (0, rng)⟩

/-- Two rows, one numeric feature with values 1 and 3, outcome `y = i`. -/
def demoData : DataFrame :=
  ⟨2, 1, fun i _ => if i = 0 then some 1 else some 3, fun i => (i : ℚ), [],
   [0], false, [0, 0]⟩

/-- mtry 1, minNodeSizeSpt 1, minNodeSizeAvg 2, minNodeSizeToSplit 1/1,
minSplitGain 0, maxDepth 2, no NAs, not linear. -/
def demoConfig : TreeConfig :=
  ⟨1, 1, 2, 1, 1, 0, 2, 100, false, 100, false, false, false, 0, 42⟩

/-- The tree grown by `forestryTreeConstruct` from the fixtures above:
one split at the root (no id), two leaves with ids 1 and 2. -/
def demoTree : GrownTree :=
  ⟨RFNode.split 0 2
      (RFNode.leaf 1 1 1 (partitionMean demoData [0]) none)
      (RFNode.leaf 1 1 2 (partitionMean demoData [1]) none)
      0 0 0 none,
    [0, 1], [0, 1], 42, 2⟩

/-! ## Construction: sanity checks, terminal tests, determinism -/

theorem treeConstructorChecks_eq_none_iff (data : DataFrame) (cfg : TreeConfig)
    (spt avg : List Nat) :
    treeConstructorChecks data cfg spt avg = none ↔
      ¬ (cfg.minNodeSizeAvg = 0 ∨ cfg.minNodeSizeSpt = 0 ∨
         cfg.minNodeSizeToSplitSpt = 0 ∨ cfg.minNodeSizeToSplitAvg = 0 ∨
         cfg.minNodeSizeToSplitAvg > avg.length ∨
         cfg.minNodeSizeToSplitSpt > spt.length ∨ cfg.maxDepth = 0 ∨
         (cfg.minSplitGain ≠ 0 ∧ ¬ cfg.linear) ∨
         avg.length = 0 ∨ spt.length = 0 ∨
         cfg.mtry = 0 ∨ cfg.mtry > data.numCols) := by
  unfold treeConstructorChecks
  by_cases h1 : cfg.minNodeSizeAvg = 0
  · rw [if_pos h1]
    exact iff_of_false (fun h => Option.noConfusion h)
      (not_not_intro (Or.inl h1))
  rw [if_neg h1]
  by_cases h2 : cfg.minNodeSizeSpt = 0
  · rw [if_pos h2]
    exact iff_of_false (fun h => Option.noConfusion h)
      (not_not_intro (Or.inr (Or.inl h2)))
  rw [if_neg h2]
  by_cases h3 : cfg.minNodeSizeToSplitSpt = 0
  · rw [if_pos h3]
    exact iff_of_false (fun h => Option.noConfusion h)
      (not_not_intro (Or.inr (Or.inr (Or.inl h3))))
  rw [if_neg h3]
  by_cases h4 : cfg.minNodeSizeToSplitAvg = 0
  · rw [if_pos h4]
    exact iff_of_false (fun h => Option.noConfusion h)
      (not_not_intro (Or.inr (Or.inr (Or.inr (Or.inl h4)))))
  rw [if_neg h4]
  by_cases h5 : cfg.minNodeSizeToSplitAvg > avg.length
  · rw [if_pos h5]
    exact iff_of_false (fun h => Option.noConfusion h)
      (not_not_intro (Or.inr (Or.inr (Or.inr (Or.inr (Or.inl h5))))))
  rw [if_neg h5]
  by_cases h6 : cfg.minNodeSizeToSplitSpt > spt.length
  · rw [if_pos h6]
    exact iff_of_false (fun h => Option.noConfusion h)
      (not_not_intro (Or.inr (Or.inr (Or.inr (Or.inr (Or.inr (Or.inl h6)))))))
  rw [if_neg h6]
  by_cases h7 : cfg.maxDepth = 0
  · rw [if_pos h7]
    exact iff_of_false (fun h => Option.noConfusion h)
      (not_not_intro (Or.inr (Or.inr (Or.inr (Or.inr (Or.inr (Or.inr (Or.inl h7))))))))
  rw [if_neg h7]
  by_cases h8 : cfg.minSplitGain ≠ 0 ∧ ¬ cfg.linear
  · rw [if_pos h8]
    exact iff_of_false (fun h => Option.noConfusion h)
      (not_not_intro (Or.inr (Or.inr (Or.inr (Or.inr (Or.inr (Or.inr (Or.inr (Or.inl h8)))))))))
  rw [if_neg h8]
  by_cases h9 : avg.length = 0
  · rw [if_pos h9]
    exact iff_of_false (fun h => Option.noConfusion h)
      (not_not_intro (Or.inr (Or.inr (Or.inr (Or.inr (Or.inr (Or.inr (Or.inr (Or.inr (Or.inl h9))))))))))
  rw [if_neg h9]
  by_cases h10 : spt.length = 0
  · rw [if_pos h10]
    exact iff_of_false (fun h => Option.noConfusion h)
      (not_not_intro (Or.inr (Or.inr (Or.inr (Or.inr (Or.inr (Or.inr (Or.inr (Or.inr (Or.inr (Or.inl h10)))))))))))
  rw [if_neg h10]
  by_cases h11 : cfg.mtry = 0
  · rw [if_pos h11]
    exact iff_of_false (fun h => Option.noConfusion h)
      (not_not_intro (Or.inr (Or.inr (Or.inr (Or.inr (Or.inr (Or.inr (Or.inr (Or.inr (Or.inr (Or.inr (Or.inl h11))))))))))))
  rw [if_neg h11]
  by_cases h12 : cfg.mtry > data.numCols
  · rw [if_pos h12]
    exact iff_of_false (fun h => Option.noConfusion h)
      (not_not_intro (Or.inr (Or.inr (Or.inr (Or.inr (Or.inr (Or.inr (Or.inr (Or.inr (Or.inr (Or.inr (Or.inr h12))))))))))))
  rw [if_neg h12]
  refine iff_of_true rfl ?_
  rintro (h | h | h | h | h | h | h | h | h | h | h | h)
  exacts [h1 h, h2 h, h3 h, h4 h, h5 h, h6 h, h7 h, h8 h, h9 h, h10 h,
    h11 h, h12 h]

/-- C1: tree construction fails with a configuration error if and only if
one of the listed conditions holds at entry — a zero minimum node size, a
min-node-size-to-split exceeding its sample, zero max depth, a non-zero
min split gain without linear, an empty index set, zero mtry, or mtry
exceeding the number of feature columns.  The error is decided by the
entry checks alone (`treeConstructorChecks`), before any node is built,
and the `Except.error` result carries no partial tree. -/
theorem claim_C1_construction_error_iff (C : Collaborators) (data : DataFrame)
    (cfg : TreeConfig) (spt avg : List Nat) (rng : RNG) :
    (∃ e, forestryTreeConstruct C data cfg spt avg rng = .error e) ↔
      (cfg.minNodeSizeAvg = 0 ∨ cfg.minNodeSizeSpt = 0 ∨
       cfg.minNodeSizeToSplitSpt = 0 ∨ cfg.minNodeSizeToSplitAvg = 0 ∨
       cfg.minNodeSizeToSplitAvg > avg.length ∨
       cfg.minNodeSizeToSplitSpt > spt.length ∨ cfg.maxDepth = 0 ∨
       (cfg.minSplitGain ≠ 0 ∧ ¬ cfg.linear) ∨
       avg.length = 0 ∨ spt.length = 0 ∨
       cfg.mtry = 0 ∨ cfg.mtry > data.numCols) := by
  constructor
  · rintro ⟨e, he⟩
    by_contra hnot
    unfold forestryTreeConstruct at he
    rw [(treeConstructorChecks_eq_none_iff data cfg spt avg).mpr hnot] at he
    exact Except.noConfusion he
  · intro hdisj
    rcases hchk : treeConstructorChecks data cfg spt avg with _ | e
    · exact absurd hdisj ((treeConstructorChecks_eq_none_iff data cfg spt avg).mp hchk)
    · exact ⟨e, by unfold forestryTreeConstruct; rw [hchk]⟩

/-- C5: for every call of `recursivePartition`, if the incoming averaging
set is smaller than `minNodeSizeAvg`, or the splitting set is smaller than
`minNodeSizeSpt`, or the depth has reached `maxDepth` (`fuel = 0`), the
node is sealed as a leaf whose weight is `partitionMean(avg)`, whose
stored counts are the two set sizes, and whose ridge coefficients are fit
on `avg` exactly when `linear` (see `sealLeaf` / `leafRidge`); the
recursion generator is returned untouched — no split search runs. -/
theorem claim_C5_terminal_pre_split (C : Collaborators) (data : DataFrame)
    (cfg : TreeConfig) (ms : Bool) (fuel : Nat) (avg spt : List Nat)
    (counter : Nat) (rng : RNG) (mono : MonotonicInfo)
    (h : avg.length < cfg.minNodeSizeAvg ∨ spt.length < cfg.minNodeSizeSpt ∨ fuel = 0) :
    recursivePartition C data cfg ms fuel avg spt counter rng mono =
      (sealLeaf C data cfg avg spt counter, counter + 1, rng) := by
  match fuel, h with
  | 0, _ => rfl
  | fuel + 1, h =>
    have hsz : avg.length < cfg.minNodeSizeAvg ∨ spt.length < cfg.minNodeSizeSpt := by
      rcases h with h | h | h
      · exact Or.inl h
      · exact Or.inr h
      · exact absurd h (Nat.succ_ne_zero fuel)
    simp only [recursivePartition]
    rw [if_pos hsz]

theorem claim_C5_terminal_pre_split_witness :
    (([] : List Nat).length < demoConfig.minNodeSizeAvg ∨
      ([0] : List Nat).length < demoConfig.minNodeSizeSpt ∨ (5 : Nat) = 0) ∧
    recursivePartition demoCollab demoData demoConfig false 5 [] [0] 0 ⟨1⟩
        defaultMonotonicInfo =
      (sealLeaf demoCollab demoData demoConfig [] [0] 0, 1, ⟨1⟩) :=
  ⟨Or.inl (by decide),
    claim_C5_terminal_pre_split demoCollab demoData demoConfig false 5 [] [0] 0 ⟨1⟩
      defaultMonotonicInfo (Or.inl (by decide))⟩

/-- C4: tree construction is deterministic — two runs of the constructor
with equal `DataFrame` contents, equal hyperparameters (including the
seed, a field of `TreeConfig`), equal sample-index vectors and equal
recursion-generator state produce identical flat records entry for entry.
The NA-direction randomization inside the build is `naDirectionDraw`,
which by definition reads only the tree seed and the two child
averaging-partition sizes (it seeds a fresh engine from `getSeed()` and
never touches the recursion generator). -/
theorem claim_C4_construction_deterministic (C : Collaborators)
    (data1 data2 : DataFrame) (cfg1 cfg2 : TreeConfig)
    (spt1 spt2 avg1 avg2 : List Nat) (rng1 rng2 : RNG)
    (hdata : data1 = data2) (hcfg : cfg1 = cfg2) (hspt : spt1 = spt2)
    (havg : avg1 = avg2) (hrng : rng1 = rng2) :
    (forestryTreeConstruct C data1 cfg1 spt1 avg1 rng1).map getTreeInfo =
      (forestryTreeConstruct C data2 cfg2 spt2 avg2 rng2).map getTreeInfo := by
  subst hdata hcfg hspt havg hrng
  rfl

theorem claim_C4_construction_deterministic_witness :
    demoData = demoData ∧ demoConfig = demoConfig ∧
      ([0, 1] : List Nat) = [0, 1] ∧ ([0, 1] : List Nat) = [0, 1] ∧
      (RNG.mk 7) = RNG.mk 7 ∧
      (forestryTreeConstruct demoCollab demoData demoConfig [0, 1] [0, 1]
          ⟨7⟩).map getTreeInfo =
        (forestryTreeConstruct demoCollab demoData demoConfig [0, 1] [0, 1]
          ⟨7⟩).map getTreeInfo :=
  ⟨rfl, rfl, rfl, rfl, rfl,
    claim_C4_construction_deterministic demoCollab demoData demoData demoConfig
      demoConfig [0, 1] [0, 1] [0, 1] [0, 1] ⟨7⟩ ⟨7⟩ rfl rfl rfl rfl rfl⟩

/-! ## Node ids in a grown tree -/

/-- Leaf node ids in left-to-right traversal order. -/
def leafIds : RFNode → List Nat
  | .leaf _ _ nodeId _ _ => [nodeId]
  | .split _ _ l r _ _ _ _ => leafIds l ++ leafIds r

/-- Whether every split node of the tree carries no assigned id. -/
def splitIdsUnassigned : RFNode → Bool
  | .leaf _ _ _ _ _ => true
  | .split _ _ l r _ _ _ nodeId =>
    decide (nodeId = none) && splitIdsUnassigned l && splitIdsUnassigned r

/-- Whether every node of the tree, leaf or split, carries exactly one id
in the range `1..count`. -/
def allNodesCarryDenseId : RFNode → Nat → Bool
  | .leaf _ _ nodeId _ _, count => decide (1 ≤ nodeId) && decide (nodeId ≤ count)
  | .split _ _ l r _ _ _ nodeId, count =>
    (match nodeId with
     | some i => decide (1 ≤ i) && decide (i ≤ count)
     | none => false) &&
    allNodesCarryDenseId l count && allNodesCarryDenseId r count

theorem range'_glue (a b c : Nat) (hab : a ≤ b) (hbc : b ≤ c) :
    List.range' (a + 1) (b - a) ++ List.range' (b + 1) (c - b) =
      List.range' (a + 1) (c - a) := by
  have h := List.range'_append (a + 1) (b - a) (c - b) 1
  simp only [one_mul] at h
  rw [show a + 1 + (b - a) = b + 1 from by omega] at h
  rw [h, show c - b + (b - a) = c - a from by omega]

/-- During growth the node counter strictly increases, the leaf ids of the
subtree grown from counter `counter` are exactly
`counter+1, …, finalCounter` in traversal order, and no split node is
assigned an id. -/
theorem recursivePartition_leafIds (C : Collaborators) (data : DataFrame)
    (cfg : TreeConfig) (ms : Bool) : ∀ (fuel : Nat) (avg spt : List Nat)
    (counter : Nat) (rng : RNG) (mono : MonotonicInfo),
    counter < (recursivePartition C data cfg ms fuel avg spt counter rng mono).2.1 ∧
    leafIds (recursivePartition C data cfg ms fuel avg spt counter rng mono).1 =
      List.range' (counter + 1)
        ((recursivePartition C data cfg ms fuel avg spt counter rng mono).2.1 - counter) ∧
    splitIdsUnassigned
      (recursivePartition C data cfg ms fuel avg spt counter rng mono).1 = true := by
  intro fuel
  induction fuel with
  | zero =>
    intro avg spt counter rng mono
    refine ⟨Nat.lt_succ_self _, ?_, rfl⟩
    simp [recursivePartition, sealLeaf, leafIds, List.range']
  | succ n ih =>
    intro avg spt counter rng mono
    by_cases hsz : avg.length < cfg.minNodeSizeAvg ∨ spt.length < cfg.minNodeSizeSpt
    · rw [show recursivePartition C data cfg ms (n + 1) avg spt counter rng mono =
          (sealLeaf C data cfg avg spt counter, counter + 1, rng) from by
        simp only [recursivePartition]; rw [if_pos hsz]]
      refine ⟨Nat.lt_succ_self _, ?_, rfl⟩
      simp [sealLeaf, leafIds, List.range']
    · simp only [recursivePartition]
      rw [if_neg hsz]
      generalize C.selectBest data cfg avg spt (n + 1) ms mono rng = selres
      obtain ⟨res, rng1⟩ := selres
      dsimp only
      obtain ⟨f, val, dir⟩ := res
      dsimp only
      rcases val with _ | v
      · exact ⟨Nat.lt_succ_self _, by simp [sealLeaf, leafIds, List.range'], rfl⟩
      · dsimp only
        generalize splitData data avg spt f v dir 0 0
          (decide (f ∈ data.catCols)) cfg.hasNas = parts
        obtain ⟨⟨avgL, avgR⟩, ⟨sptL, sptR⟩, naL, naR⟩ := parts
        dsimp only
        by_cases hemp : avgL.length * avgR.length * sptL.length * sptR.length = 0
        · rw [if_pos hemp]
          exact ⟨Nat.lt_succ_self _, by simp [sealLeaf, leafIds, List.range'], rfl⟩
        · rw [if_neg hemp]
          generalize (if 0 < cfg.minSplitGain then
              ((decide ((crossValidatedRSquared C data spt sptL sptR
                cfg.overfitPenalty 1 rng1).1 < cfg.minSplitGain)),
               (crossValidatedRSquared C data spt sptL sptR
                cfg.overfitPenalty 1 rng1).2)
            else (false, rng1)) = gate
          obtain ⟨gateHit, rng2⟩ := gate
          dsimp only
          rcases gateHit with _ | _
          · -- gate not hit: recurse into both children
            simp only [Bool.false_eq_true, if_false]
            generalize (if ms then
                updateMonotoneConstraints mono data.monotonicConstraints
                  (partitionMean data sptL) (partitionMean data sptR) f
              else (defaultMonotonicInfo, defaultMonotonicInfo)) = cd
            obtain ⟨mdl, mdr⟩ := cd
            dsimp only
            generalize (if cfg.naDirection ∧ naL = 0 ∧ naR = 0 then
                naDirectionDraw C.discreteDraw cfg.seed avgL.length avgR.length
              else dir) = nd
            obtain ⟨ihl1, ihl2, ihl3⟩ := ih avgL sptL counter rng2 mdl
            obtain ⟨ihr1, ihr2, ihr3⟩ := ih avgR sptR
              (recursivePartition C data cfg ms n avgL sptL counter rng2 mdl).2.1
              (recursivePartition C data cfg ms n avgL sptL counter rng2 mdl).2.2 mdr
            refine ⟨by omega, ?_, ?_⟩
            · simp only [leafIds]
              rw [ihl2, ihr2, range'_glue _ _ _ (by omega) (by omega)]
            · simp only [splitIdsUnassigned, ihl3, ihr3]
              simp
          · -- gate hit: leaf
            simp only [if_true]
            exact ⟨Nat.lt_succ_self _, by simp [sealLeaf, leafIds, List.range'], rfl⟩

/-- C9 counterexample: the tree grown by `forestryTreeConstruct` from the
concrete fixtures has a split root that carries no node id (and a node
counter of 2 for its 3 nodes), so it is false that every node of a grown
tree, leaf or split, carries exactly one id from `1..nodeCount`. -/
theorem claim_C9_counterexample :
    forestryTreeConstruct demoCollab demoData demoConfig [0, 1] [0, 1] ⟨7⟩ =
      .ok demoTree ∧
    allNodesCarryDenseId demoTree.root demoTree.nodeCount = false :=
  ⟨rfl, rfl⟩

/-- C9 (amended): in every tree built by `forestryTreeConstruct`, node ids
are assigned by the tree's monotonically increasing counter, but only the
leaves receive ids: the leaf ids are exactly `1..nodeCount` (unique,
dense, in left-to-right order, with `nodeCount` the final counter value =
number of leaves), while split nodes are never assigned an id. -/
theorem claim_C9_leaf_ids_dense (C : Collaborators) (data : DataFrame)
    (cfg : TreeConfig) (spt avg : List Nat) (rng : RNG) (t : GrownTree)
    (h : forestryTreeConstruct C data cfg spt avg rng = .ok t) :
    leafIds t.root = List.range' 1 t.nodeCount ∧ 0 < t.nodeCount ∧
      splitIdsUnassigned t.root = true := by
  unfold forestryTreeConstruct at h
  rcases hchk : treeConstructorChecks data cfg spt avg with _ | e
  swap
  · rw [hchk] at h
    exact Except.noConfusion h
  rw [hchk] at h
  rw [Except.ok.injEq] at h
  subst h
  obtain ⟨h1, h2, h3⟩ := recursivePartition_leafIds C data cfg
    (!(data.monotonicConstraints.all (fun i => i == 0))) cfg.maxDepth
    avg spt 0 rng ⟨data.monotonicConstraints, maxDouble, -maxDouble, data.monotoneAvg⟩
  exact ⟨by simpa using h2, h1, h3⟩

theorem claim_C9_leaf_ids_dense_witness :
    forestryTreeConstruct demoCollab demoData demoConfig [0, 1] [0, 1] ⟨7⟩ =
      .ok demoTree ∧
    (leafIds demoTree.root = List.range' 1 demoTree.nodeCount ∧
      0 < demoTree.nodeCount ∧ splitIdsUnassigned demoTree.root = true) :=
  ⟨rfl, claim_C9_leaf_ids_dense demoCollab demoData demoConfig [0, 1] [0, 1] ⟨7⟩
    demoTree rfl⟩

/-! ## The split partition as a permutation of the incoming index set -/

theorem partitionThreeWay_perm (data : DataFrame) (f : Nat) (v : ℚ) (cat : Bool)
    (sample : List Nat) :
    ((partitionThreeWay data f v cat sample).1 ++
      ((partitionThreeWay data f v cat sample).2.1 ++
        (partitionThreeWay data f v cat sample).2.2)).Perm sample := by
  induction sample with
  | nil => simp [partitionThreeWay]
  | cons i rest ih =>
    rcases hrec : partitionThreeWay data f v cat rest with ⟨l, r, na⟩
    rw [hrec] at ih
    rcases hp : data.point i f with _ | x
    · simp only [partitionThreeWay, hrec, hp]
      exact ((List.Perm.append_left l List.perm_middle).trans
        List.perm_middle).trans (ih.cons i)
    · by_cases hc : (if cat then x = v else x < v)
      · simp only [partitionThreeWay, hrec, hp, if_pos hc]
        simpa using ih.cons i
      · simp only [partitionThreeWay, hrec, hp, if_neg hc]
        exact List.perm_middle.trans (ih.cons i)

theorem partitionThreeWay_na_eq_nil (data : DataFrame) (f : Nat) (v : ℚ)
    (cat : Bool) (sample : List Nat)
    (h : ∀ i ∈ sample, data.point i f ≠ none) :
    (partitionThreeWay data f v cat sample).2.2 = [] := by
  induction sample with
  | nil => rfl
  | cons i rest ih =>
    have hna : (partitionThreeWay data f v cat rest).2.2 = [] :=
      ih (fun j hj => h j (List.mem_cons_of_mem i hj))
    rcases hrec : partitionThreeWay data f v cat rest with ⟨l, r, na⟩
    rw [hrec] at hna
    rcases hp : data.point i f with _ | x
    · exact absurd hp (h i (List.mem_cons_self i rest))
    · by_cases hc : (if cat then x = v else x < v)
      · simp only [partitionThreeWay, hrec, hp, if_pos hc]
        exact hna
      · simp only [partitionThreeWay, hrec, hp, if_neg hc]
        exact hna

theorem partitionTwoWay_perm (data : DataFrame) (f : Nat) (v : ℚ) (cat : Bool)
    (sample : List Nat) :
    ((partitionTwoWay data f v cat sample).1 ++
      (partitionTwoWay data f v cat sample).2).Perm sample := by
  induction sample with
  | nil => simp [partitionTwoWay]
  | cons i rest ih =>
    rcases hrec : partitionTwoWay data f v cat rest with ⟨l, r⟩
    rw [hrec] at ih
    rcases hp : data.point i f with _ | x
    · simp only [partitionTwoWay, hrec, hp, Bool.false_eq_true, if_false]
      exact List.perm_middle.trans (ih.cons i)
    · by_cases hc : (if cat then decide (x = v) else decide (x < v)) = true
      · simp only [partitionTwoWay, hrec, hp, if_pos hc]
        simpa using ih.cons i
      · simp only [partitionTwoWay, hrec, hp, if_neg hc]
        exact List.perm_middle.trans (ih.cons i)

/-- The two output partitions of `splitDataIntoTwoParts` form a
permutation of the incoming index set, provided the NA direction is `-1`
or `1`, or there are no NAs to route (`hasNas` false or no NA entry of
the split feature in the sample).  (When the direction is `0` with
`hasNas` set, NA observations are dropped — see the C3 counterexample.) -/
theorem splitDataIntoTwoParts_perm (data : DataFrame) (sample : List Nat)
    (f : Nat) (v : ℚ) (dir : Int) (cat hasNas : Bool) (nl0 nr0 : Nat)
    (h : dir = -1 ∨ dir = 1 ∨ hasNas = false ∨
      ∀ i ∈ sample, data.point i f ≠ none) :
    ((splitDataIntoTwoParts data sample f v dir cat hasNas nl0 nr0).1 ++
      (splitDataIntoTwoParts data sample f v dir cat hasNas nl0 nr0).2.1).Perm
      sample := by
  rcases hn : hasNas with _ | _
  · unfold splitDataIntoTwoParts
    simp only [Bool.false_eq_true, if_false]
    exact partitionTwoWay_perm data f v cat sample
  · have h3 := partitionThreeWay_perm data f v cat sample
    rcases hrec : partitionThreeWay data f v cat sample with ⟨l, r, na⟩
    rw [hrec] at h3
    unfold splitDataIntoTwoParts
    simp only [if_true, hrec]
    by_cases hd1 : dir = -1
    · rw [if_pos hd1]
      have hassoc : (l ++ na) ++ r = l ++ (na ++ r) := List.append_assoc l na r
      show ((l ++ na) ++ r).Perm sample
      rw [hassoc]
      exact (List.Perm.append_left l List.perm_append_comm).trans h3
    · rw [if_neg hd1]
      by_cases hd2 : dir = 1
      · rw [if_pos hd2]
        simpa using h3
      · rw [if_neg hd2]
        have hnil : na = [] := by
          rcases h with h | h | h | h
          · exact absurd h hd1
          · exact absurd h hd2
          · exact absurd hn (by simp [h])
          · have hx := partitionThreeWay_na_eq_nil data f v cat sample h
            rw [hrec] at hx
            exact hx
        subst hnil
        simpa using h3

theorem partitionThreeWay_mem_left (data : DataFrame) (f : Nat) (v : ℚ)
    (cat : Bool) (sample : List Nat) (i : Nat)
    (hi : i ∈ (partitionThreeWay data f v cat sample).1) :
    ∃ x, data.point i f = some x ∧ (if cat then x = v else x < v) := by
  induction sample with
  | nil => simp [partitionThreeWay] at hi
  | cons j rest ih =>
    rcases hrec : partitionThreeWay data f v cat rest with ⟨l, r, na⟩
    rw [hrec] at ih
    rcases hp : data.point j f with _ | x
    · simp only [partitionThreeWay, hrec, hp] at hi
      exact ih hi
    · by_cases hc : (if cat then x = v else x < v)
      · simp only [partitionThreeWay, hrec, hp, if_pos hc] at hi
        rcases List.mem_cons.mp hi with hij | hil
        · subst hij
          exact ⟨x, hp, hc⟩
        · exact ih hil
      · simp only [partitionThreeWay, hrec, hp, if_neg hc] at hi
        exact ih hi

theorem partitionThreeWay_mem_right (data : DataFrame) (f : Nat) (v : ℚ)
    (cat : Bool) (sample : List Nat) (i : Nat)
    (hi : i ∈ (partitionThreeWay data f v cat sample).2.1) :
    ∃ x, data.point i f = some x ∧ ¬ (if cat then x = v else x < v) := by
  induction sample with
  | nil => simp [partitionThreeWay] at hi
  | cons j rest ih =>
    rcases hrec : partitionThreeWay data f v cat rest with ⟨l, r, na⟩
    rw [hrec] at ih
    rcases hp : data.point j f with _ | x
    · simp only [partitionThreeWay, hrec, hp] at hi
      exact ih hi
    · by_cases hc : (if cat then x = v else x < v)
      · simp only [partitionThreeWay, hrec, hp, if_pos hc] at hi
        exact ih hi
      · simp only [partitionThreeWay, hrec, hp, if_neg hc] at hi
        rcases List.mem_cons.mp hi with hij | hir
        · subst hij
          exact ⟨x, hp, hc⟩
        · exact ih hir

theorem partitionThreeWay_mem_na (data : DataFrame) (f : Nat) (v : ℚ)
    (cat : Bool) (sample : List Nat) (i : Nat)
    (hi : i ∈ (partitionThreeWay data f v cat sample).2.2) :
    data.point i f = none := by
  induction sample with
  | nil => simp [partitionThreeWay] at hi
  | cons j rest ih =>
    rcases hrec : partitionThreeWay data f v cat rest with ⟨l, r, na⟩
    rw [hrec] at ih
    rcases hp : data.point j f with _ | x
    · simp only [partitionThreeWay, hrec, hp] at hi
      rcases List.mem_cons.mp hi with hij | hina
      · subst hij
        exact hp
      · exact ih hina
    · by_cases hc : (if cat then x = v else x < v)
      · simp only [partitionThreeWay, hrec, hp, if_pos hc] at hi
        exact ih hi
      · simp only [partitionThreeWay, hrec, hp, if_neg hc] at hi
        exact ih hi

/-- Routing in the `hasNas` loop is a function of the feature value of
the index alone, so no index can reach both value-routed sides. -/
theorem partitionThreeWay_disjoint_lr (data : DataFrame) (f : Nat) (v : ℚ)
    (cat : Bool) (sample : List Nat) :
    ((partitionThreeWay data f v cat sample).1).Disjoint
      (partitionThreeWay data f v cat sample).2.1 := by
  intro i hil hir
  obtain ⟨x, hx, hcx⟩ := partitionThreeWay_mem_left data f v cat sample i hil
  obtain ⟨y, hy, hcy⟩ := partitionThreeWay_mem_right data f v cat sample i hir
  rw [hx] at hy
  obtain rfl : x = y := by injection hy
  exact hcy hcx

theorem partitionThreeWay_disjoint_nar (data : DataFrame) (f : Nat) (v : ℚ)
    (cat : Bool) (sample : List Nat) :
    ((partitionThreeWay data f v cat sample).2.2).Disjoint
      (partitionThreeWay data f v cat sample).2.1 := by
  intro i hina hir
  obtain ⟨y, hy, _⟩ := partitionThreeWay_mem_right data f v cat sample i hir
  have hn := partitionThreeWay_mem_na data f v cat sample i hina
  rw [hn] at hy
  exact Option.noConfusion hy

theorem partitionThreeWay_disjoint_lna (data : DataFrame) (f : Nat) (v : ℚ)
    (cat : Bool) (sample : List Nat) :
    ((partitionThreeWay data f v cat sample).1).Disjoint
      (partitionThreeWay data f v cat sample).2.2 := by
  intro i hil hina
  obtain ⟨x, hx, _⟩ := partitionThreeWay_mem_left data f v cat sample i hil
  have hn := partitionThreeWay_mem_na data f v cat sample i hina
  rw [hn] at hx
  exact Option.noConfusion hx

theorem partitionTwoWay_mem_left (data : DataFrame) (f : Nat) (v : ℚ)
    (cat : Bool) (sample : List Nat) (i : Nat)
    (hi : i ∈ (partitionTwoWay data f v cat sample).1) :
    ∃ x, data.point i f = some x ∧
      (if cat then decide (x = v) else decide (x < v)) = true := by
  induction sample with
  | nil => simp [partitionTwoWay] at hi
  | cons j rest ih =>
    rcases hrec : partitionTwoWay data f v cat rest with ⟨l, r⟩
    rw [hrec] at ih
    rcases hp : data.point j f with _ | x
    · simp only [partitionTwoWay, hrec, hp, Bool.false_eq_true, if_false] at hi
      exact ih hi
    · by_cases hc : (if cat then decide (x = v) else decide (x < v)) = true
      · simp only [partitionTwoWay, hrec, hp, if_pos hc] at hi
        rcases List.mem_cons.mp hi with hij | hil
        · subst hij
          exact ⟨x, hp, hc⟩
        · exact ih hil
      · simp only [partitionTwoWay, hrec, hp, if_neg hc] at hi
        exact ih hi

theorem partitionTwoWay_mem_right (data : DataFrame) (f : Nat) (v : ℚ)
    (cat : Bool) (sample : List Nat) (i : Nat)
    (hi : i ∈ (partitionTwoWay data f v cat sample).2) :
    data.point i f = none ∨
      ∃ x, data.point i f = some x ∧
        (if cat then decide (x = v) else decide (x < v)) = false := by
  induction sample with
  | nil => simp [partitionTwoWay] at hi
  | cons j rest ih =>
    rcases hrec : partitionTwoWay data f v cat rest with ⟨l, r⟩
    rw [hrec] at ih
    rcases hp : data.point j f with _ | x
    · simp only [partitionTwoWay, hrec, hp, Bool.false_eq_true, if_false] at hi
      rcases List.mem_cons.mp hi with hij | hir
      · subst hij
        exact Or.inl hp
      · exact ih hir
    · by_cases hc : (if cat then decide (x = v) else decide (x < v)) = true
      · simp only [partitionTwoWay, hrec, hp, if_pos hc] at hi
        exact ih hi
      · simp only [partitionTwoWay, hrec, hp, if_neg hc] at hi
        rcases List.mem_cons.mp hi with hij | hir
        · subst hij
          exact Or.inr ⟨x, hp, Bool.eq_false_iff.mpr hc⟩
        · exact ih hir

/-- Routing in the `!hasNas` loop is likewise a function of the feature
value of the index alone. -/
theorem partitionTwoWay_disjoint (data : DataFrame) (f : Nat) (v : ℚ)
    (cat : Bool) (sample : List Nat) :
    ((partitionTwoWay data f v cat sample).1).Disjoint
      (partitionTwoWay data f v cat sample).2 := by
  intro i hil hir
  obtain ⟨x, hx, hcx⟩ := partitionTwoWay_mem_left data f v cat sample i hil
  rcases partitionTwoWay_mem_right data f v cat sample i hir with hn | ⟨y, hy, hcy⟩
  · rw [hx] at hn
    exact Option.noConfusion hn
  · rw [hx] at hy
    obtain rfl : x = y := by injection hy
    rw [hcx] at hcy
    exact Bool.noConfusion hcy

/-- The two output partitions of `splitDataIntoTwoParts` are disjoint for
every input — direction `0`, duplicated indices and NAs included —
because an index is routed by its feature value alone: every occurrence
lands on the same side, and a dropped NA occurrence lands on neither. -/
theorem splitDataIntoTwoParts_disjoint (data : DataFrame) (sample : List Nat)
    (f : Nat) (v : ℚ) (dir : Int) (cat hasNas : Bool) (nl0 nr0 : Nat) :
    ((splitDataIntoTwoParts data sample f v dir cat hasNas nl0 nr0).1).Disjoint
      (splitDataIntoTwoParts data sample f v dir cat hasNas nl0 nr0).2.1 := by
  rcases hn : hasNas with _ | _
  · unfold splitDataIntoTwoParts
    simp only [Bool.false_eq_true, if_false]
    exact partitionTwoWay_disjoint data f v cat sample
  · have hlr := partitionThreeWay_disjoint_lr data f v cat sample
    have hnar := partitionThreeWay_disjoint_nar data f v cat sample
    have hlna := partitionThreeWay_disjoint_lna data f v cat sample
    rcases hrec : partitionThreeWay data f v cat sample with ⟨l, r, na⟩
    rw [hrec] at hlr hnar hlna
    unfold splitDataIntoTwoParts
    simp only [if_true, hrec]
    by_cases hd1 : dir = -1
    · rw [if_pos hd1]
      show (l ++ na).Disjoint r
      intro i hi hir
      rcases List.mem_append.mp hi with h | h
      · exact hlr h hir
      · exact hnar h hir
    · rw [if_neg hd1]
      by_cases hd2 : dir = 1
      · rw [if_pos hd2]
        show l.Disjoint (r ++ na)
        intro i hil hi
        rcases List.mem_append.mp hi with h | h
        · exact hlr hil h
        · exact hlna hil h
      · rw [if_neg hd2]
        exact hlr

/-- Concrete data with an NA: one feature whose value at row 1 is NaN. -/
def naData : DataFrame :=
  ⟨3, 1, fun i _ => if i = 0 then some 1 else if i = 1 then none else some 3,
    fun _ => 0, [], [0], false, [0, 0, 0]⟩

/-- C3 counterexample: with `hasNas` set, an NA on the split feature and
NA direction `0`, `splitDataIntoTwoParts` drops the NA observation — the
two output partitions are `[0]` and `[2]` although the incoming set was
`[0, 1, 2]` — so the partition property does not hold for every value of
the best NA direction. -/
theorem claim_C3_counterexample :
    splitDataIntoTwoParts naData [0, 1, 2] 0 2 0 false true 0 0 =
      ([0], [2], 0, 0) ∧
    ¬ (((splitDataIntoTwoParts naData [0, 1, 2] 0 2 0 false true 0 0).1 ++
        (splitDataIntoTwoParts naData [0, 1, 2] 0 2 0 false true 0 0).2.1).Perm
        [0, 1, 2]) :=
  ⟨rfl, by decide⟩

/-- C3 (amended): for both the averaging and the splitting index set, the
two sides produced by `splitData` at a split are always disjoint —
routing depends only on the feature value of the index, for every NA
direction and also for duplicated incoming indices — and, provided the
best NA direction is `-1` or `1` or no NA of the split feature has to be
routed (`hasNas` false, or no NA entry in the sets), left and right
together are moreover a permutation of the incoming set (nothing lost,
nothing duplicated); with direction `0` and an NA present the NA
observations are dropped (counterexample). -/
theorem claim_C3_split_partition (data : DataFrame)
    (avgSample sptSample : List Nat) (f : Nat) (v : ℚ) (dir : Int)
    (nl0 nr0 : Nat) (cat hasNas : Bool) :
    ((dir = -1 ∨ dir = 1 ∨ hasNas = false ∨
        ∀ i ∈ avgSample ++ sptSample, data.point i f ≠ none) →
      (((splitData data avgSample sptSample f v dir nl0 nr0 cat hasNas).1.1 ++
          (splitData data avgSample sptSample f v dir nl0 nr0 cat hasNas).1.2).Perm
          avgSample ∧
        ((splitData data avgSample sptSample f v dir nl0 nr0 cat hasNas).2.1.1 ++
          (splitData data avgSample sptSample f v dir nl0 nr0 cat hasNas).2.1.2).Perm
          sptSample)) ∧
    (((splitData data avgSample sptSample f v dir nl0 nr0 cat hasNas).1.1).Disjoint
        (splitData data avgSample sptSample f v dir nl0 nr0 cat hasNas).1.2 ∧
      ((splitData data avgSample sptSample f v dir nl0 nr0 cat hasNas).2.1.1).Disjoint
        (splitData data avgSample sptSample f v dir nl0 nr0 cat hasNas).2.1.2) := by
  constructor
  · intro h
    have havg := splitDataIntoTwoParts_perm data avgSample f v dir cat hasNas 0 0
      (by rcases h with h | h | h | h
          · exact Or.inl h
          · exact Or.inr (Or.inl h)
          · exact Or.inr (Or.inr (Or.inl h))
          · exact Or.inr (Or.inr (Or.inr
              (fun i hi => h i (List.mem_append_left _ hi)))))
    have hspt := splitDataIntoTwoParts_perm data sptSample f v dir cat hasNas nl0 nr0
      (by rcases h with h | h | h | h
          · exact Or.inl h
          · exact Or.inr (Or.inl h)
          · exact Or.inr (Or.inr (Or.inl h))
          · exact Or.inr (Or.inr (Or.inr
              (fun i hi => h i (List.mem_append_right _ hi)))))
    exact ⟨havg, hspt⟩
  · exact ⟨splitDataIntoTwoParts_disjoint data avgSample f v dir cat hasNas 0 0,
      splitDataIntoTwoParts_disjoint data sptSample f v dir cat hasNas nl0 nr0⟩

theorem claim_C3_split_partition_witness :
    (((splitData demoData [0] [0, 1] 0 2 0 0 0 false false).1.1 ++
        (splitData demoData [0] [0, 1] 0 2 0 0 0 false false).1.2).Perm [0] ∧
      ((splitData demoData [0] [0, 1] 0 2 0 0 0 false false).2.1.1 ++
        (splitData demoData [0] [0, 1] 0 2 0 0 0 false false).2.1.2).Perm [0, 1]) ∧
    (((splitData demoData [0] [0, 1] 0 2 0 0 0 false false).1.1).Disjoint
        (splitData demoData [0] [0, 1] 0 2 0 0 0 false false).1.2 ∧
      ((splitData demoData [0] [0, 1] 0 2 0 0 0 false false).2.1.1).Disjoint
        (splitData demoData [0] [0, 1] 0 2 0 0 0 false false).2.1.2) :=
  ⟨(claim_C3_split_partition demoData [0] [0, 1] 0 2 0 0 0 false false).1
      (Or.inr (Or.inr (Or.inl rfl))),
    (claim_C3_split_partition demoData [0] [0, 1] 0 2 0 0 0 false false).2⟩

/-- C8: when a split on feature `j` is sealed under monotone splitting,
`updateMonotoneConstraints` installs the child bounds as follows, with
`mid = (clampP(meanL) + clampP(meanR)) / 2` where `clampP` projects a
mean through the parent bounds (`calculateMonotonicBound`): constraint
`+1` sets the left child's upper bound and the right child's lower bound
to `mid`, the left child inheriting the parent's lower bound and the
right child the parent's upper bound; constraint `-1` is the same with
the roles of the bounds exchanged; constraint `0` passes both parent
bounds to both children unchanged.  The constraint vector (equal to the
parent's) and the `monotoneAvg` flag are passed down unchanged in every
case. -/
theorem claim_C8_monotone_bound_update (m : MonotonicInfo)
    (constraints : List Int) (leftMean rightMean : ℚ) (j : Nat)
    (hc : constraints = m.monotonic_constraints) :
    (updateMonotoneConstraints m constraints leftMean rightMean j).1.monotonic_constraints =
        m.monotonic_constraints ∧
    (updateMonotoneConstraints m constraints leftMean rightMean j).2.monotonic_constraints =
        m.monotonic_constraints ∧
    (updateMonotoneConstraints m constraints leftMean rightMean j).1.monotoneAvg =
        m.monotoneAvg ∧
    (updateMonotoneConstraints m constraints leftMean rightMean j).2.monotoneAvg =
        m.monotoneAvg ∧
    (m.monotonic_constraints.getD j 0 = 1 →
      (updateMonotoneConstraints m constraints leftMean rightMean j).1.upper_bound =
          (calculateMonotonicBound leftMean m + calculateMonotonicBound rightMean m) / 2 ∧
        (updateMonotoneConstraints m constraints leftMean rightMean j).2.lower_bound =
          (calculateMonotonicBound leftMean m + calculateMonotonicBound rightMean m) / 2 ∧
        (updateMonotoneConstraints m constraints leftMean rightMean j).1.lower_bound =
          m.lower_bound ∧
        (updateMonotoneConstraints m constraints leftMean rightMean j).2.upper_bound =
          m.upper_bound) ∧
    (m.monotonic_constraints.getD j 0 = -1 →
      (updateMonotoneConstraints m constraints leftMean rightMean j).1.lower_bound =
          (calculateMonotonicBound leftMean m + calculateMonotonicBound rightMean m) / 2 ∧
        (updateMonotoneConstraints m constraints leftMean rightMean j).2.upper_bound =
          (calculateMonotonicBound leftMean m + calculateMonotonicBound rightMean m) / 2 ∧
        (updateMonotoneConstraints m constraints leftMean rightMean j).1.upper_bound =
          m.upper_bound ∧
        (updateMonotoneConstraints m constraints leftMean rightMean j).2.lower_bound =
          m.lower_bound) ∧
    (m.monotonic_constraints.getD j 0 = 0 →
      (updateMonotoneConstraints m constraints leftMean rightMean j).1.upper_bound =
          m.upper_bound ∧
        (updateMonotoneConstraints m constraints leftMean rightMean j).1.lower_bound =
          m.lower_bound ∧
        (updateMonotoneConstraints m constraints leftMean rightMean j).2.upper_bound =
          m.upper_bound ∧
        (updateMonotoneConstraints m constraints leftMean rightMean j).2.lower_bound =
          m.lower_bound) := by
  subst hc
  simp only [updateMonotoneConstraints]
  by_cases h1 : m.monotonic_constraints.getD j 0 = -1
  · rw [if_pos h1]
    refine ⟨rfl, rfl, rfl, rfl, ?_, ?_, ?_⟩
    · intro hd; omega
    · intro _; exact ⟨rfl, rfl, rfl, rfl⟩
    · intro hd; omega
  · rw [if_neg h1]
    by_cases h2 : m.monotonic_constraints.getD j 0 = 1
    · rw [if_pos h2]
      refine ⟨rfl, rfl, rfl, rfl, ?_, ?_, ?_⟩
      · intro _; exact ⟨rfl, rfl, rfl, rfl⟩
      · intro hd; omega
      · intro hd; omega
    · rw [if_neg h2]
      refine ⟨rfl, rfl, rfl, rfl, ?_, ?_, ?_⟩
      · intro hd; omega
      · intro hd; omega
      · intro _; exact ⟨rfl, rfl, rfl, rfl⟩

/-- A concrete parent monotone record used by the C8 witness. -/
def demoMono : MonotonicInfo := ⟨[1], 10, 0, true⟩

theorem claim_C8_monotone_bound_update_witness :
    (([1] : List Int) = demoMono.monotonic_constraints) ∧
    ((updateMonotoneConstraints demoMono [1] 3 20 0).1.monotonic_constraints =
        demoMono.monotonic_constraints ∧
    (updateMonotoneConstraints demoMono [1] 3 20 0).2.monotonic_constraints =
        demoMono.monotonic_constraints ∧
    (updateMonotoneConstraints demoMono [1] 3 20 0).1.monotoneAvg =
        demoMono.monotoneAvg ∧
    (updateMonotoneConstraints demoMono [1] 3 20 0).2.monotoneAvg =
        demoMono.monotoneAvg ∧
    (demoMono.monotonic_constraints.getD 0 0 = 1 →
      (updateMonotoneConstraints demoMono [1] 3 20 0).1.upper_bound =
          (calculateMonotonicBound 3 demoMono + calculateMonotonicBound 20 demoMono) / 2 ∧
        (updateMonotoneConstraints demoMono [1] 3 20 0).2.lower_bound =
          (calculateMonotonicBound 3 demoMono + calculateMonotonicBound 20 demoMono) / 2 ∧
        (updateMonotoneConstraints demoMono [1] 3 20 0).1.lower_bound =
          demoMono.lower_bound ∧
        (updateMonotoneConstraints demoMono [1] 3 20 0).2.upper_bound =
          demoMono.upper_bound) ∧
    (demoMono.monotonic_constraints.getD 0 0 = -1 →
      (updateMonotoneConstraints demoMono [1] 3 20 0).1.lower_bound =
          (calculateMonotonicBound 3 demoMono + calculateMonotonicBound 20 demoMono) / 2 ∧
        (updateMonotoneConstraints demoMono [1] 3 20 0).2.upper_bound =
          (calculateMonotonicBound 3 demoMono + calculateMonotonicBound 20 demoMono) / 2 ∧
        (updateMonotoneConstraints demoMono [1] 3 20 0).1.upper_bound =
          demoMono.upper_bound ∧
        (updateMonotoneConstraints demoMono [1] 3 20 0).2.lower_bound =
          demoMono.lower_bound) ∧
    (demoMono.monotonic_constraints.getD 0 0 = 0 →
      (updateMonotoneConstraints demoMono [1] 3 20 0).1.upper_bound =
          demoMono.upper_bound ∧
        (updateMonotoneConstraints demoMono [1] 3 20 0).1.lower_bound =
          demoMono.lower_bound ∧
        (updateMonotoneConstraints demoMono [1] 3 20 0).2.upper_bound =
          demoMono.upper_bound ∧
        (updateMonotoneConstraints demoMono [1] 3 20 0).2.lower_bound =
          demoMono.lower_bound)) :=
  ⟨rfl, claim_C8_monotone_bound_update demoMono [1] 3 20 0 rfl⟩

/-! ## Out-of-bag index computation -/

/-- `std::sort` on an index vector: ascending order. -/
def sortNat (l : List Nat) : List Nat := l.insertionSort (· ≤ ·)

/-- `std::set_union` on two sorted ranges (forestryTree.cpp:1184–1190):
linear merge; on equal heads the element is taken from the first range
and both advance (so common elements contribute the larger of their two
multiplicities). -/
def setUnionMerge : List Nat → List Nat → List Nat
  | [], ys => ys
  | x :: xs, [] => x :: xs
  | x :: xs, y :: ys =>
    if y < x then y :: setUnionMerge (x :: xs) ys
    else if x < y then x :: setUnionMerge xs (y :: ys)
    else x :: setUnionMerge xs ys
termination_by xs ys => xs.length + ys.length

/-- `std::set_difference` on two sorted ranges (forestryTree.cpp:1197–1203):
linear merge; each occurrence in the second range cancels one matching
occurrence in the first. -/
def setDifferenceMerge : List Nat → List Nat → List Nat
  | [], _ => []
  | x :: xs, [] => x :: xs
  | x :: xs, y :: ys =>
    if x < y then x :: setDifferenceMerge xs (y :: ys)
    else if y < x then setDifferenceMerge (x :: xs) ys
    else setDifferenceMerge xs ys
termination_by xs ys => xs.length + ys.length

/-- `forestryTree::getOOBindex` (forestryTree.cpp:1159–1214): sorts in
place the stored splitting and averaging vectors and the caller's
`allIndex`, forms their sorted-merge union, and appends the sorted-merge
difference `allIndex ∖ union` to the output vector.  The embedding makes
the three in-place mutations explicit by returning the updated tree
state, the updated `allIndex` and the updated output vector. -/
def getOOBindexFn (t : GrownTree) (allIndex outputOOBIndex : List Nat) :
    GrownTree × List Nat × List Nat :=
  let spt := sortNat t.splittingSampleIndex
  let avg := sortNat t.averagingSampleIndex
  let all := sortNat allIndex
  let allSampledIndex := setUnionMerge spt avg
  let OOBIndex := setDifferenceMerge all allSampledIndex
  ({t with splittingSampleIndex := spt, averagingSampleIndex := avg},
    all, outputOOBIndex ++ OOBIndex)

/-- `forestryTree::getDoubleOOBIndex` (forestryTree.cpp:1216–1278):
operation for operation the same procedure as `getOOBindex`. -/
def getDoubleOOBIndexFn (t : GrownTree) (allIndex outputOOBIndex : List Nat) :
    GrownTree × List Nat × List Nat :=
  let spt := sortNat t.splittingSampleIndex
  let avg := sortNat t.averagingSampleIndex
  let all := sortNat allIndex
  let allSampledIndex := setUnionMerge spt avg
  let OOBIndex := setDifferenceMerge all allSampledIndex
  ({t with splittingSampleIndex := spt, averagingSampleIndex := avg},
    all, outputOOBIndex ++ OOBIndex)

/-- `forestryTree::getOOBhonestIndex` (forestryTree.cpp:1280–1319): sorts
in place the stored averaging vector and `allIndex` only, and appends the
sorted-merge difference `allIndex ∖ averaging`. -/
def getOOBhonestIndexFn (t : GrownTree) (allIndex outputOOBIndex : List Nat) :
    GrownTree × List Nat × List Nat :=
  let avg := sortNat t.averagingSampleIndex
  let all := sortNat allIndex
  let OOBIndex := setDifferenceMerge all avg
  ({t with averagingSampleIndex := avg}, all, outputOOBIndex ++ OOBIndex)

/-- `forestryTree::getOOGIndex` (forestryTree.cpp:1321–1370): sorts in
place the stored averaging vector and `allIndex` — but not the splitting
vector — collects the group ids of the averaging indices (plus, when
`doubleOOB`, those of the splitting indices, read without sorting), and
appends every entry of the sorted `allIndex` whose group id is not among
them. -/
def getOOGIndexFn (t : GrownTree) (groupMemberships : List Nat)
    (allIndex outputOOBIndex : List Nat) (doubleOOB : Bool) :
    GrownTree × List Nat × List Nat :=
  let avg := sortNat t.averagingSampleIndex
  let all := sortNat allIndex
  let in_sample_groups :=
    avg.map (fun i => groupMemberships.getD i 0) ++
      (if doubleOOB then
        t.splittingSampleIndex.map (fun i => groupMemberships.getD i 0)
       else [])
  ({t with averagingSampleIndex := avg}, all,
    outputOOBIndex ++
      all.filter (fun i => !decide (groupMemberships.getD i 0 ∈ in_sample_groups)))

theorem mem_setUnionMerge (z : Nat) : ∀ xs ys,
    z ∈ setUnionMerge xs ys ↔ z ∈ xs ∨ z ∈ ys := by
  intro xs ys
  induction xs, ys using setUnionMerge.induct with
  | case1 ys => simp [setUnionMerge]
  | case2 x xs => simp [setUnionMerge]
  | case3 x xs y ys h ih =>
    simp only [setUnionMerge, if_pos h, List.mem_cons, ih]
    tauto
  | case4 x xs y ys h h2 ih =>
    simp only [setUnionMerge, if_neg h, if_pos h2, List.mem_cons, ih]
    tauto
  | case5 x xs y ys h h2 ih =>
    have hxy : x = y := by omega
    simp only [setUnionMerge, if_neg h, if_neg h2, List.mem_cons, ih]
    subst hxy
    tauto

theorem sorted_setUnionMerge : ∀ xs ys, xs.Sorted (· ≤ ·) → ys.Sorted (· ≤ ·) →
    (setUnionMerge xs ys).Sorted (· ≤ ·) := by
  intro xs ys
  induction xs, ys using setUnionMerge.induct with
  | case1 ys => intro _ h; simpa [setUnionMerge] using h
  | case2 x xs => intro h _; simpa [setUnionMerge] using h
  | case3 x xs y ys h ih =>
    intro hxs hys
    simp only [setUnionMerge, if_pos h]
    rw [List.sorted_cons]
    refine ⟨?_, ih hxs (List.sorted_cons.mp hys).2⟩
    intro b hb
    rw [mem_setUnionMerge] at hb
    rcases hb with hb | hb
    · rcases List.mem_cons.mp hb with rfl | hb
      · omega
      · have := (List.sorted_cons.mp hxs).1 b hb; omega
    · exact (List.sorted_cons.mp hys).1 b hb
  | case4 x xs y ys h h2 ih =>
    intro hxs hys
    simp only [setUnionMerge, if_neg h, if_pos h2]
    rw [List.sorted_cons]
    refine ⟨?_, ih (List.sorted_cons.mp hxs).2 hys⟩
    intro b hb
    rw [mem_setUnionMerge] at hb
    rcases hb with hb | hb
    · exact (List.sorted_cons.mp hxs).1 b hb
    · rcases List.mem_cons.mp hb with rfl | hb
      · omega
      · have := (List.sorted_cons.mp hys).1 b hb; omega
  | case5 x xs y ys h h2 ih =>
    intro hxs hys
    have hxy : x = y := by omega
    simp only [setUnionMerge, if_neg h, if_neg h2]
    rw [List.sorted_cons]
    refine ⟨?_, ih (List.sorted_cons.mp hxs).2 (List.sorted_cons.mp hys).2⟩
    intro b hb
    rw [mem_setUnionMerge] at hb
    rcases hb with hb | hb
    · exact (List.sorted_cons.mp hxs).1 b hb
    · subst hxy
      exact (List.sorted_cons.mp hys).1 b hb

theorem setDifferenceMerge_eq_filter : ∀ (xs ys : List Nat),
    xs.Sorted (· ≤ ·) → xs.Nodup → ys.Sorted (· ≤ ·) →
    setDifferenceMerge xs ys = xs.filter (fun z => !decide (z ∈ ys)) := by
  intro xs ys
  induction xs, ys using setDifferenceMerge.induct with
  | case1 ys => intro _ _ _; simp [setDifferenceMerge]
  | case2 x xs => intro _ _ _; simp [setDifferenceMerge]
  | case3 x xs y ys hlt ih =>
    intro hxs hn hys
    have hxmem : ¬ (x ∈ y :: ys) := by
      intro hmem
      rcases List.mem_cons.mp hmem with rfl | hmem
      · omega
      · have := (List.sorted_cons.mp hys).1 x hmem; omega
    simp only [setDifferenceMerge, if_pos hlt]
    rw [List.filter_cons_of_pos (by simpa using hxmem),
      ih (List.sorted_cons.mp hxs).2 (List.nodup_cons.mp hn).2 hys]
  | case4 x xs y ys hnlt hlt ih =>
    intro hxs hn hys
    simp only [setDifferenceMerge, if_neg hnlt, if_pos hlt]
    rw [ih hxs hn (List.sorted_cons.mp hys).2]
    refine List.filter_congr ?_
    intro z hz
    have hxz : x ≤ z := by
      rcases List.mem_cons.mp hz with rfl | hz
      · exact Nat.le_refl z
      · exact (List.sorted_cons.mp hxs).1 z hz
    have hzy : z ≠ y := by omega
    have hiff : (z ∈ ys) ↔ (z ∈ y :: ys) := by
      constructor
      · exact List.mem_cons_of_mem y
      · intro hm
        rcases List.mem_cons.mp hm with rfl | hm
        · exact absurd rfl hzy
        · exact hm
    rw [decide_eq_decide.mpr hiff]
  | case5 x xs y ys hnlt hnlt2 ih =>
    intro hxs hn hys
    have hxy : x = y := by omega
    simp only [setDifferenceMerge, if_neg hnlt, if_neg hnlt2]
    rw [ih (List.sorted_cons.mp hxs).2 (List.nodup_cons.mp hn).2
      (List.sorted_cons.mp hys).2]
    rw [List.filter_cons_of_neg (by subst hxy; simp)]
    refine List.filter_congr ?_
    intro z hz
    have hxz : x ≤ z := (List.sorted_cons.mp hxs).1 z hz
    have hzx : z ≠ x := fun he => (List.nodup_cons.mp hn).1 (he ▸ hz)
    have hzy : z ≠ y := by omega
    have hiff : (z ∈ ys) ↔ (z ∈ y :: ys) := by
      constructor
      · exact List.mem_cons_of_mem y
      · intro hm
        rcases List.mem_cons.mp hm with rfl | hm
        · exact absurd rfl hzy
        · exact hm
    rw [decide_eq_decide.mpr hiff]

theorem sortNat_sorted (l : List Nat) : (sortNat l).Sorted (· ≤ ·) :=
  List.sorted_insertionSort _ l

theorem sortNat_perm (l : List Nat) : (sortNat l).Perm l :=
  List.perm_insertionSort _ l

theorem mem_sortNat (z : Nat) (l : List Nat) : z ∈ sortNat l ↔ z ∈ l :=
  (sortNat_perm l).mem_iff

theorem sortNat_nodup (l : List Nat) (h : l.Nodup) : (sortNat l).Nodup :=
  (sortNat_perm l).nodup_iff.mpr h

/-- A tree state whose averaging vector holds index 5, for the C6
counterexample. -/
def oobTree : GrownTree := ⟨RFNode.leaf 1 1 1 0 none, [5], [], 0, 1⟩

/-- C6 counterexample: with the duplicated input `allIndex = [5, 5]` and
averaging vector `[5]`, `getOOBhonestIndex` appends `[5]` — the sorted
merge difference cancels only one occurrence per occurrence in the
averaging vector — although `5` belongs to the averaging index set and
the claim says such elements are excluded from the output. -/
theorem claim_C6_counterexample :
    (getOOBhonestIndexFn oobTree [5, 5] []).2.2 = [5] ∧
    5 ∈ oobTree.averagingSampleIndex := by
  refine ⟨?_, by decide⟩
  show ([] : List Nat) ++ setDifferenceMerge (sortNat [5, 5])
    (sortNat oobTree.averagingSampleIndex) = [5]
  simp [sortNat, oobTree, List.insertionSort, List.orderedInsert, setDifferenceMerge]

/-- C6 (amended): for every duplicate-free input vector `allIndex`,
`getOOBindex` appends exactly the elements of `allIndex` belonging
neither to the stored splitting nor to the stored averaging index set, in
ascending sorted order, and `getOOBhonestIndex` appends exactly the
elements of `allIndex` not in the averaging index set, likewise sorted.
(With duplicates in `allIndex` the sorted-merge difference cancels one
occurrence per occurrence in the subtrahend, so an element of the sampled
sets can survive — see the counterexample.) -/
theorem claim_C6_oob_characterization (t : GrownTree) (allIndex out : List Nat)
    (h : allIndex.Nodup) :
    (getOOBindexFn t allIndex out).2.2 =
      out ++ (sortNat allIndex).filter
        (fun x => !decide (x ∈ t.splittingSampleIndex) &&
          !decide (x ∈ t.averagingSampleIndex)) ∧
    ((sortNat allIndex).filter
        (fun x => !decide (x ∈ t.splittingSampleIndex) &&
          !decide (x ∈ t.averagingSampleIndex))).Sorted (· ≤ ·) ∧
    (getOOBhonestIndexFn t allIndex out).2.2 =
      out ++ (sortNat allIndex).filter
        (fun x => !decide (x ∈ t.averagingSampleIndex)) ∧
    ((sortNat allIndex).filter
        (fun x => !decide (x ∈ t.averagingSampleIndex))).Sorted (· ≤ ·) := by
  refine ⟨?_, List.Pairwise.filter _ (sortNat_sorted allIndex), ?_,
    List.Pairwise.filter _ (sortNat_sorted allIndex)⟩
  · unfold getOOBindexFn
    dsimp only
    rw [setDifferenceMerge_eq_filter _ _ (sortNat_sorted _) (sortNat_nodup _ h)
      (sorted_setUnionMerge _ _ (sortNat_sorted _) (sortNat_sorted _))]
    congr 1
    refine List.filter_congr ?_
    intro z _
    have hiff : (z ∈ setUnionMerge (sortNat t.splittingSampleIndex)
        (sortNat t.averagingSampleIndex)) ↔
        (z ∈ t.splittingSampleIndex ∨ z ∈ t.averagingSampleIndex) := by
      rw [mem_setUnionMerge, mem_sortNat, mem_sortNat]
    by_cases h1 : z ∈ t.splittingSampleIndex <;>
      by_cases h2 : z ∈ t.averagingSampleIndex <;>
        simp [h1, h2, hiff]
  · unfold getOOBhonestIndexFn
    dsimp only
    rw [setDifferenceMerge_eq_filter _ _ (sortNat_sorted _) (sortNat_nodup _ h)
      (sortNat_sorted _)]
    congr 1
    refine List.filter_congr ?_
    intro z _
    simp [mem_sortNat]

theorem claim_C6_oob_characterization_witness :
    (([0, 1, 2] : List Nat).Nodup) ∧
    ((getOOBindexFn oobTree [0, 1, 2] []).2.2 =
      [] ++ (sortNat [0, 1, 2]).filter
        (fun x => !decide (x ∈ oobTree.splittingSampleIndex) &&
          !decide (x ∈ oobTree.averagingSampleIndex)) ∧
    ((sortNat [0, 1, 2]).filter
        (fun x => !decide (x ∈ oobTree.splittingSampleIndex) &&
          !decide (x ∈ oobTree.averagingSampleIndex))).Sorted (· ≤ ·) ∧
    (getOOBhonestIndexFn oobTree [0, 1, 2] []).2.2 =
      [] ++ (sortNat [0, 1, 2]).filter
        (fun x => !decide (x ∈ oobTree.averagingSampleIndex)) ∧
    ((sortNat [0, 1, 2]).filter
        (fun x => !decide (x ∈ oobTree.averagingSampleIndex))).Sorted (· ≤ ·)) :=
  ⟨by decide, claim_C6_oob_characterization oobTree [0, 1, 2] [] (by decide)⟩

/-- C7: `getDoubleOOBIndex` computes exactly the same output as
`getOOBindex` on every tree state, input vector and output accumulator —
the double-honest regime coincides with the standard regime as a function
of the stored index sets and `allIndex`. -/
theorem claim_C7_double_oob_equals_standard (t : GrownTree)
    (allIndex outputOOBIndex : List Nat) :
    getDoubleOOBIndexFn t allIndex outputOOBIndex =
      getOOBindexFn t allIndex outputOOBIndex := rfl

/-- A tree state with unsorted splitting vector `[2, 1]`, for the C10
counterexample. -/
def oogTree : GrownTree := ⟨RFNode.leaf 1 1 1 0 none, [1, 0], [2, 1], 0, 1⟩

/-- C10 counterexample: in the grouped regime with `doubleOOB = true`,
`getOOGIndex` reads the splitting vector without sorting it — after the
call the stored splitting vector is still the unsorted `[2, 1]` — whereas
the claim says the grouped-double regime sorts the stored splitting index
vector in place. -/
theorem claim_C10_counterexample :
    (getOOGIndexFn oogTree [0, 1, 2] [0, 1, 2] [] true).1.splittingSampleIndex =
      [2, 1] ∧
    ¬ ((getOOGIndexFn oogTree [0, 1, 2] [0, 1, 2]
        [] true).1.splittingSampleIndex.Sorted (· ≤ ·)) :=
  ⟨rfl, by decide⟩

/-- C10 (amended): every OOB index computation sorts in place, as its
only side effects on the tree state and its arguments, the caller's
`allIndex` vector and the stored averaging vector — and, for the standard
and double-honest regimes only, also the stored splitting vector (the
grouped regime reads the splitting vector without sorting it, even with
`doubleOOB`); beyond this sorting, the only other effect is appending the
computed indices to the output vector, and no other field of the tree is
modified. -/
theorem claim_C10_oob_frame_effects (t : GrownTree) (gm allIndex out : List Nat)
    (doubleOOB : Bool) :
    (getOOBindexFn t allIndex out).1 =
      {t with splittingSampleIndex := sortNat t.splittingSampleIndex,
              averagingSampleIndex := sortNat t.averagingSampleIndex} ∧
    (getOOBindexFn t allIndex out).2.1 = sortNat allIndex ∧
    (getOOBindexFn t allIndex out).2.2 =
      out ++ (getOOBindexFn t allIndex []).2.2 ∧
    (getDoubleOOBIndexFn t allIndex out).1 =
      {t with splittingSampleIndex := sortNat t.splittingSampleIndex,
              averagingSampleIndex := sortNat t.averagingSampleIndex} ∧
    (getDoubleOOBIndexFn t allIndex out).2.1 = sortNat allIndex ∧
    (getDoubleOOBIndexFn t allIndex out).2.2 =
      out ++ (getDoubleOOBIndexFn t allIndex []).2.2 ∧
    (getOOBhonestIndexFn t allIndex out).1 =
      {t with averagingSampleIndex := sortNat t.averagingSampleIndex} ∧
    (getOOBhonestIndexFn t allIndex out).2.1 = sortNat allIndex ∧
    (getOOBhonestIndexFn t allIndex out).2.2 =
      out ++ (getOOBhonestIndexFn t allIndex []).2.2 ∧
    (getOOGIndexFn t gm allIndex out doubleOOB).1 =
      {t with averagingSampleIndex := sortNat t.averagingSampleIndex} ∧
    (getOOGIndexFn t gm allIndex out doubleOOB).2.1 = sortNat allIndex ∧
    (getOOGIndexFn t gm allIndex out doubleOOB).2.2 =
      out ++ (getOOGIndexFn t gm allIndex [] doubleOOB).2.2 :=
  ⟨rfl, rfl, rfl, rfl, rfl, rfl, rfl, rfl, rfl, rfl, rfl, rfl⟩
